import Mathlib

/-!
Shallow embedding of `blinkstick-rs` (`src/lib.rs`): a Rust library driving the
RGB LEDs of a BlinkStick USB HID device.  Machine integers are modelled as
`Fin 256` (`u8`, wrapping arithmetic as in Rust release builds) or `Nat`;
`Duration` values are modelled as nanosecond counts (`Nat`); fallible code and
Rust panics are modelled with `Option`/`Except` (`none` / `.error` = panic or
error).  Wall-clock time is modelled by an oracle `elapsed : Nat → Nat` giving
the measured elapsed nanoseconds of each animation step, and transport
success/failure by an oracle `ok : Nat → Bool` giving the outcome of each
attempted device transaction.
-/

/-- Bytes (`u8`): arithmetic on `Fin 256` wraps modulo 256 exactly like Rust
`u8` arithmetic in release builds. -/
abbrev U8 := Fin 256

/-- Rust `Color { r: u8, g: u8, b: u8 }` (lib.rs lines 36-41). -/
structure Color where
  r : U8
  g : U8
  b : U8
deriving DecidableEq, Repr

/-- Rust `COLOR_OFF` (lib.rs line 42). -/
def COLOR_OFF : Color := { r := 0, g := 0, b := 0 }

/-- Rust `FeatureErrorType` (lib.rs lines 24-28). -/
inductive FeatureErrorType where
  | Get
  | Send
deriving DecidableEq, Repr

/-- Rust `FeatureError` (lib.rs lines 19-22). -/
structure FeatureError where
  kind : FeatureErrorType
deriving DecidableEq, Repr

/-- Rust `REPORT_ARRAY_BYTES` (lib.rs line 17). -/
def REPORT_ARRAY_BYTES : Nat := 100

/-- Rust `expr as u8` applied to a nonnegative float value: truncation toward
zero with saturation at 255 (for negative values it saturates at 0, which
`Int.toNat` of the floor also yields). -/
def f32ToU8 (q : ℚ) : U8 :=
  ⟨min 255 ⌊q⌋.toNat, by omega⟩

/-- Rust `calculate_gradients` (lib.rs lines 830-842):

    (1..=steps).map(|step| {
        let step_percent = step as f32 / steps as f32;
        Color { r: ((start.r as f32 * (1.0 - step_percent))
                    + (target.r as f32 * step_percent)) as u8, .. } })

The `f32` arithmetic is modelled with exact rational arithmetic.  At the
final step (`step == steps`) the IEEE-754 computation is exact — `x / x = 1.0`,
`1.0 - 1.0 = 0.0`, `c * 0.0 = 0.0`, `c * 1.0 = c` and `0.0 + c = c` for the
integer-valued finite floats involved, and every channel value `c ≤ 255` is
representable exactly in `f32` — so the rational model coincides with the
compiled code on the sequence length and on the final element, the quantities
the specification speaks about. -/
def calculate_gradients (start_color target_color : Color) (steps : Nat) : List Color :=
  (List.range steps).map (fun i =>
    let step : Nat := i + 1
    let step_percent : ℚ := (step : ℚ) / (steps : ℚ)
    { r := f32ToU8 ((start_color.r.val : ℚ) * (1 - step_percent)
            + (target_color.r.val : ℚ) * step_percent)
      g := f32ToU8 ((start_color.g.val : ℚ) * (1 - step_percent)
            + (target_color.g.val : ℚ) * step_percent)
      b := f32ToU8 ((start_color.b.val : ℚ) * (1 - step_percent)
            + (target_color.b.val : ℚ) * step_percent) })

/-! ## Resilient transaction layer (lib.rs lines 792-827)

Transport outcomes are an oracle `ok : Nat → Bool`: `ok n` is the outcome of
the `n`-th attempted transaction (0-based).  Each call records a trace of
events: which attempts were made, and the fixed 10 ms backoff sleep. -/

/-- Observable event of the retry layer: one transport attempt, or a sleep. -/
inductive IOEvent where
  | attempt (n : Nat)
  | sleepMs (ms : Nat)
deriving DecidableEq, Repr

/-- Rust `for _ in 0..5 { if self.device.send_feature_report(feature).is_ok()
{ return Ok(()); } }` (and the identical loop of `get_feature_report`):
attempts `start, start+1, …` up to `count` times, stopping at the first
success.  Returns whether a success occurred together with the attempt
trace. -/
def retryLoop (ok : Nat → Bool) : Nat → Nat → Bool × List IOEvent
  | _, 0 => (false, [])
  | start, count + 1 =>
    if ok start then (true, [IOEvent.attempt start])
    else
      let r := retryLoop ok (start + 1) count
      (r.1, IOEvent.attempt start :: r.2)

/-- Rust `send_feature_to_blinkstick` (lib.rs lines 792-807): 5 immediate
attempts, then a 10 ms sleep and one final attempt; error `Send` only if all
fail.  The frame argument is kept for fidelity; the outcome depends on the
transport oracle. -/
def send_feature_to_blinkstick (ok : Nat → Bool) (_feature : List U8) :
    Except FeatureError Unit × List IOEvent :=
  match retryLoop ok 0 5 with
  | (true, evs) => (Except.ok (), evs)
  | (false, evs) =>
    if ok 5 then
      (Except.ok (), evs ++ [IOEvent.sleepMs 10, IOEvent.attempt 5])
    else
      (Except.error ⟨FeatureErrorType.Send⟩, evs ++ [IOEvent.sleepMs 10, IOEvent.attempt 5])

/-- Rust `get_feature_from_blinkstick` (lib.rs lines 809-827): same retry
scheme, returning the device buffer on success and error `Get` otherwise.
`devBuf` is the report the device would deliver on a successful read. -/
def get_feature_from_blinkstick (ok : Nat → Bool) (devBuf : List U8) (_id : U8) :
    Except FeatureError (List U8) × List IOEvent :=
  match retryLoop ok 0 5 with
  | (true, evs) => (Except.ok devBuf, evs)
  | (false, evs) =>
    if ok 5 then
      (Except.ok devBuf, evs ++ [IOEvent.sleepMs 10, IOEvent.attempt 5])
    else
      (Except.error ⟨FeatureErrorType.Get⟩, evs ++ [IOEvent.sleepMs 10, IOEvent.attempt 5])


/-! ## Frame codec and addressing (lib.rs lines 172-283, 746-790)

Frames are byte lists.  Rust `u8` index arithmetic (`(led * 3) + 2` on `u8`
values) is `Fin 256` arithmetic, which wraps modulo 256 exactly as release
builds do; `usize` arithmetic is plain `Nat`.  Panics are `Except.error msg`
carrying the panic message. -/

/-- `let led_offset: usize = ((led * 3) + 2).into();` (lib.rs line 202):
`u8` wrapping arithmetic, then widening to `usize`. -/
def led_offset (led : U8) : Nat := ((led * 3 + 2 : U8)).val

/-- `((self.max_leds * 3) + 2).into()` (lib.rs lines 84, 204, 269): the
derived report length, also computed in `u8` arithmetic. -/
def report_length (max_leds : U8) : Nat := ((max_leds * 3 + 2 : U8)).val

/-- `let mut data_vec: [u8; REPORT_ARRAY_BYTES] = [0; REPORT_ARRAY_BYTES];
data_vec[0] = 0x6;` (lib.rs lines 198-199, 262-263). -/
def initReportBuf : List U8 := (List.replicate REPORT_ARRAY_BYTES (0 : U8)).set 0 6

/-- Panic message of `set_multiple_leds_color` / `set_all_leds_colors` /
`get_led_color` (lib.rs lines 205-209): names the led and the valid range. -/
def oobMessage (max_leds : U8) (led : Nat) : String :=
  "BlinkStick device does not contain led " ++ toString led
    ++ ". Valid leds are 0-" ++ toString ((max_leds - 1 : U8)).val ++ " (zero-indexed)"

/-- Rust `set_led_color` (lib.rs lines 172-178), as the frame handed to
`send_feature_to_blinkstick`; `Except.error` is the panic, whose message
(lib.rs line 174) names the led only. -/
def set_led_color_frame (max_leds led : U8) (color : Color) : Except String (List U8) :=
  if max_leds ≤ led then
    Except.error ("Led " ++ toString led.val ++ " is out of bounds for Blinkstick device")
  else
    Except.ok [5, 0, led, color.r, color.g, color.b]

/-- Loop of `set_multiple_leds_color` (lib.rs lines 201-215): per led, the
(u8-wrapped) offset is checked against the (u8-wrapped) bound and the color
triplet is written in G,R,B order.  `List.set` models the indexed stores; for
`max_leds ≤ 32` every accepted offset satisfies `led_offset + 2 ≤ 99 < 100`,
so the stores' own bounds panic is unreachable and `List.set` is exact. -/
def writeLedsLoop (max_leds : U8) (color : Color) : List U8 → List U8 → Except String (List U8)
  | [], buf => Except.ok buf
  | led :: rest, buf =>
    if report_length max_leds ≤ led_offset led then
      Except.error (oobMessage max_leds led.val)
    else
      writeLedsLoop max_leds color rest
        (((buf.set (led_offset led) color.g).set (led_offset led + 1) color.r).set
          (led_offset led + 2) color.b)

/-- Rust `set_multiple_leds_color` (lib.rs lines 197-218): builds the 0x6
report and slices it to `report_length` bytes. -/
def set_multiple_leds_color (max_leds : U8) (leds : List U8) (color : Color) :
    Except String (List U8) :=
  (writeLedsLoop max_leds color leds initReportBuf).map
    (fun buf => buf.take (report_length max_leds))

/-- Loop of `set_all_leds_colors` (lib.rs lines 265-280): `led_index` comes
from `enumerate` and is a `usize` (no wrapping); the bound is still the
u8-wrapped `report_length`. -/
def writeColorsLoop (max_leds : U8) : List (Nat × Color) → List U8 → Except String (List U8)
  | [], buf => Except.ok buf
  | (led_index, led_color) :: rest, buf =>
    if report_length max_leds ≤ led_index * 3 + 2 then
      Except.error (oobMessage max_leds led_index)
    else
      writeColorsLoop max_leds rest
        (((buf.set (led_index * 3 + 2) led_color.g).set
          (led_index * 3 + 2 + 1) led_color.r).set (led_index * 3 + 2 + 2) led_color.b)

/-- Rust `set_all_leds_colors` (lib.rs lines 261-283): iterates
`colors.iter().enumerate().take(max_leds)` over a zero-initialised 0x6
report and slices it to `report_length` bytes. -/
def set_all_leds_colors (max_leds : U8) (colors : List Color) : Except String (List U8) :=
  (writeColorsLoop max_leds (colors.enum.take max_leds.val) initReportBuf).map
    (fun buf => buf.take (report_length max_leds))

/-- Decode loop of `get_all_led_colors` (lib.rs lines 749-758): for each led,
`Color { r: buf[idx+1], g: buf[idx], b: buf[idx+2] }` with `idx = led*3 + 2`
in `usize` arithmetic.  `List.getD` models the indexing, in bounds for
`max_leds ≤ 32` since `idx + 2 ≤ 97 < 100`. -/
def decodeLedColors (max_leds : U8) (buf : List U8) : List Color :=
  (List.range max_leds.val).map (fun led =>
    { r := buf.getD (led * 3 + 2 + 1) 0
      g := buf.getD (led * 3 + 2) 0
      b := buf.getD (led * 3 + 2 + 2) 0 })


/-- Rust `set_all_leds_color` (lib.rs lines 233-236): collects `0..max_leds`
and delegates to `set_multiple_leds_color`; the resulting frame is sent
through the retry layer.  `none` models the bounds panic, otherwise the
outcome of the send. -/
def set_all_leds_color (max_leds : U8) (ok : Nat → Bool) (color : Color) :
    Option (Except FeatureError Unit) :=
  match set_multiple_leds_color max_leds
      ((List.range max_leds.val).map (fun i => Fin.ofNat i)) color with
  | Except.error _ => none
  | Except.ok frame => some (send_feature_to_blinkstick ok frame).1

/-- Rust `impl Drop for BlinkStick` (lib.rs lines 50-54):
`self.set_all_leds_color(COLOR_OFF).unwrap()`.  The `unwrap` panics
(`none`) when the all-off command fails. -/
def drop_blinkstick (max_leds : U8) (ok : Nat → Bool) : Option Unit :=
  match set_all_leds_color max_leds ok COLOR_OFF with
  | some (Except.ok _) => some ()
  | some (Except.error _) => none
  | none => none

/-! ## Device-state level model of the animation engine (lib.rs lines 391-726)

The device is modelled by its per-LED color state `List Color` (length
`max_leds`); the byte-level frame codec relating this view to the 0x6/0x5
reports is verified separately above, and transport transactions are taken to
succeed here (the animation claims are about completed runs).  Rust panics
are `none`.  Durations are nanosecond counts; `elapsed step` is the measured
elapsed time of the given step's device write. -/

/-- Rust `Duration::saturating_sub` (lib.rs lines 517, 621): truncated
subtraction, never panics.  `Nat` subtraction is exactly saturating. -/
def duration_saturating_sub (a b : Nat) : Nat := a - b

/-- Rust `Duration::sub` (lib.rs line 682): panics (`none`) when the
subtrahend exceeds the minuend. -/
def duration_sub (a b : Nat) : Option Nat :=
  if b ≤ a then some (a - b) else none

/-- Rust `get_led_color` (lib.rs lines 778-790): reads all colors, panics on
an out-of-range led, otherwise indexes. -/
def get_led_color (max_leds : U8) (s : List Color) (led : U8) : Option Color :=
  if max_leds ≤ led then none else s[led.val]?

/-- Device-state effect of `set_led_color` (lib.rs lines 172-178): the 0x5
report `[0x5, 0, led, r, g, b]` updates one LED; panic on out-of-range. -/
def set_led_color_state (max_leds : U8) (s : List Color) (led : U8) (color : Color) :
    Option (List Color) :=
  if max_leds ≤ led then none else some (s.set led.val color)

/-- Device-state effect of `set_all_leds_colors` (lib.rs lines 261-283): the
full 0x6 report overwrites every LED; led `i` receives `colors[i]` when
provided and `{0,0,0}` otherwise (zero-initialised frame), entries beyond
`max_leds` being ignored — the state-level reading of the byte-level result
proved in `claim_set_all_colors_any_length` (the loop's bound check cannot
fire for the in-range indices `enumerate().take(max_leds)` yields). -/
def set_all_leds_colors_state (max_leds : U8) (colors : List Color) : List Color :=
  (List.range max_leds.val).map (fun i => colors.getD i COLOR_OFF)

/-- Loop of `transform_led_color` (lib.rs lines 512-521): per gradient color,
set the led, then sleep `interval.saturating_sub(elapsed)` (clamped; the
sleep is skipped when zero, which leaves the state unchanged either way).
Returns the final state and the per-step sleep durations. -/
def transformLedLoop (max_leds : U8) (led : U8) (interval : Nat) (elapsed : Nat → Nat) :
    List Color → Nat → List Color → Option (List Color × List Nat)
  | [], _, s => some (s, [])
  | color :: rest, step, s =>
    match set_led_color_state max_leds s led color with
    | none => none
    | some s2 =>
      match transformLedLoop max_leds led interval elapsed rest (step + 1) s2 with
      | none => none
      | some (sF, sleeps) =>
        some (sF, duration_saturating_sub interval (elapsed step) :: sleeps)

/-- Rust `transform_led_color` (lib.rs lines 500-524): `interval =
duration.div(steps)` (`Duration::div` panics on a zero divisor), gradient
from the led's current color to the target, then the per-step loop. -/
def transform_led_color (max_leds : U8) (s : List Color) (led : U8)
    (duration steps : Nat) (target_color : Color) (elapsed : Nat → Nat) :
    Option (List Color × List Nat) :=
  if steps = 0 then none
  else
    match get_led_color max_leds s led with
    | none => none
    | some start_led_color =>
      transformLedLoop max_leds led (duration / steps) elapsed
        (calculate_gradients start_led_color target_color steps) 0 s

/-- Gradient-building loop of `transform_multiple_leds_color` (lib.rs lines
668-672): per led, a gradient from its current color to the target, appended
in order. -/
def buildGradients (max_leds : U8) (s : List Color) (target_color : Color) (steps : Nat) :
    List U8 → Option (List Color)
  | [] => some []
  | led :: rest =>
    match get_led_color max_leds s led with
    | none => none
    | some current =>
      match buildGradients max_leds s target_color steps rest with
      | none => none
      | some tail => some (calculate_gradients current target_color steps ++ tail)

/-- Indexed update of `transform_multiple_leds_color` (lib.rs lines 677-679):
`all_led_colors[*led as usize] = led_gradients[index * steps as usize + step]`
for each enumerated led; either indexing panics (`none`) when out of
bounds. -/
def updateLedColors (led_gradients : List Color) (steps step : Nat) :
    List (Nat × U8) → List Color → Option (List Color)
  | [], acc => some acc
  | (index, led) :: rest, acc =>
    if led.val < acc.length ∧ index * steps + step < led_gradients.length then
      updateLedColors led_gradients steps step rest
        (acc.set led.val (led_gradients.getD (index * steps + step) COLOR_OFF))
    else none

/-- Step loop of `transform_multiple_leds_color` (lib.rs lines 674-683),
`for step in 0..steps` iterating the index list `List.range steps`: per step,
read all colors, overwrite the addressed leds from the gradient table, write
all colors back as one frame, then sleep `interval.sub(start.elapsed())` —
an unchecked subtraction that panics (`none`) when the step's elapsed time
exceeds the interval. -/
def transformMultipleLoop (max_leds : U8) (leds : List U8) (led_gradients : List Color)
    (interval steps : Nat) (elapsed : Nat → Nat) :
    List Nat → List Color → Option (List Color × List Nat)
  | [], s => some (s, [])
  | step :: remaining, s =>
    match updateLedColors led_gradients steps step leds.enum s with
    | none => none
    | some updated =>
      match duration_sub interval (elapsed step) with
      | none => none
      | some sleep =>
        match transformMultipleLoop max_leds leds led_gradients interval steps elapsed
            remaining (set_all_leds_colors_state max_leds updated) with
        | none => none
        | some (sF, sleeps) => some (sF, sleep :: sleeps)

/-- Rust `transform_multiple_leds_color` (lib.rs lines 659-686). -/
def transform_multiple_leds_color (max_leds : U8) (s : List Color) (leds : List U8)
    (duration steps : Nat) (target_color : Color) (elapsed : Nat → Nat) :
    Option (List Color × List Nat) :=
  if steps = 0 then none
  else
    match buildGradients max_leds s target_color steps leds with
    | none => none
    | some led_gradients =>
      transformMultipleLoop max_leds leds led_gradients (duration / steps) steps elapsed
        (List.range steps) s

/-- Rust iterator chain `skip(step).step_by(steps)` of `transform_leds`
(lib.rs lines 613-618), as applied to the already-skipped list: `stepBy n l`
yields every `n`-th element of `l` starting with the first. -/
def stepBy (n : Nat) : List Color → List Color
  | [] => []
  | x :: xs => x :: stepBy n (xs.drop (n - 1))
termination_by l => l.length
decreasing_by simp [List.length_drop]; omega

/-- Step loop of `transform_leds` (lib.rs lines 610-625), `for step in
0..steps` iterating the index list `List.range steps`: per step, the step's
frame is the gradient table's `skip(step).step_by(steps)` slice, sent as one
full 0x6 report; the pacing sleep uses `saturating_sub` (clamped). -/
def transformLedsLoop (max_leds : U8) (led_gradients : List Color) (interval steps : Nat)
    (elapsed : Nat → Nat) : List Nat → List Color → Option (List Color × List Nat)
  | [], s => some (s, [])
  | step :: remaining, s =>
    match transformLedsLoop max_leds led_gradients interval steps elapsed remaining
        (set_all_leds_colors_state max_leds (stepBy steps (led_gradients.drop step))) with
    | none => none
    | some (sF, sleeps) =>
      some (sF, duration_saturating_sub interval (elapsed step) :: sleeps)

/-- Rust `transform_leds` (lib.rs lines 607-628): `interval =
duration.div(steps)`, then the step loop. -/
def transform_leds (max_leds : U8) (s : List Color) (led_gradients : List Color)
    (duration steps : Nat) (elapsed : Nat → Nat) : Option (List Color × List Nat) :=
  if steps = 0 then none
  else transformLedsLoop max_leds led_gradients (duration / steps) steps elapsed
    (List.range steps) s

/-- Gradient-building loop of `transform_all_leds_colors` (lib.rs lines
565-569): `target_colors.iter().enumerate().take(max_leds)`, one gradient per
led from its current color (`led as u8` is the truncating usize-to-u8
cast). -/
def buildGradientsAll (max_leds : U8) (s : List Color) (steps : Nat) :
    List (Nat × Color) → Option (List Color)
  | [] => some []
  | (led, target_color) :: rest =>
    match get_led_color max_leds s (Fin.ofNat led) with
    | none => none
    | some current =>
      match buildGradientsAll max_leds s steps rest with
      | none => none
      | some tail => some (calculate_gradients current target_color steps ++ tail)

/-- Rust `transform_all_leds_colors` (lib.rs lines 559-572). -/
def transform_all_leds_colors (max_leds : U8) (s : List Color)
    (duration steps : Nat) (target_colors : List Color) (elapsed : Nat → Nat) :
    Option (List Color × List Nat) :=
  match buildGradientsAll max_leds s steps (target_colors.enum.take max_leds.val) with
  | none => none
  | some led_gradients => transform_leds max_leds s led_gradients duration steps elapsed

/-- Rust `pulse_led_color` (lib.rs lines 391-397): capture the led's color,
transform to the target over `duration/2`, then transform back to the
captured color over `duration/2`. -/
def pulse_led_color (max_leds : U8) (s : List Color) (led : U8)
    (duration steps : Nat) (color : Color) (e1 e2 : Nat → Nat) : Option (List Color) :=
  match get_led_color max_leds s led with
  | none => none
  | some old_color =>
    match transform_led_color max_leds s led (duration / 2) steps color e1 with
    | none => none
    | some (s2, _) =>
      match transform_led_color max_leds s2 led (duration / 2) steps old_color e2 with
      | none => none
      | some (s3, _) => some s3

/-- Rust `pulse_multiple_leds_color` (lib.rs lines 430-441): captures all
current colors (`get_all_led_colors`, i.e. the state itself), transforms the
addressed leds to the target over `duration/2`, then transforms all leds
back to the captured colors. -/
def pulse_multiple_leds_color (max_leds : U8) (s : List Color) (leds : List U8)
    (duration steps : Nat) (color : Color) (e1 e2 : Nat → Nat) : Option (List Color) :=
  match transform_multiple_leds_color max_leds s leds (duration / 2) steps color e1 with
  | none => none
  | some (s2, _) =>
    match transform_all_leds_colors max_leds s2 (duration / 2) steps s e2 with
    | none => none
    | some (s3, _) => some s3

/-- Rust `transform_all_leds_color` (lib.rs lines 592-605): `for led in
0..self.max_leds`, one gradient per led from its current color to the single
target — the same per-led gradient loop as `transform_multiple_leds_color`
(modelled by `buildGradients`), applied to the full led list `0..max_leds` —
then `transform_leds`. -/
def transform_all_leds_color (max_leds : U8) (s : List Color)
    (duration steps : Nat) (target_color : Color) (elapsed : Nat → Nat) :
    Option (List Color × List Nat) :=
  match buildGradients max_leds s target_color steps
      ((List.range max_leds.val).map (fun i => Fin.ofNat i)) with
  | none => none
  | some led_gradients => transform_leds max_leds s led_gradients duration steps elapsed

/-- Rust `pulse_all_leds_color` (lib.rs lines 464-474): captures all current
colors, transforms every led to the single target over `duration/2`, then
transforms all leds back to the captured colors. -/
def pulse_all_leds_color (max_leds : U8) (s : List Color)
    (duration steps : Nat) (target_color : Color) (e1 e2 : Nat → Nat) :
    Option (List Color) :=
  match transform_all_leds_color max_leds s (duration / 2) steps target_color e1 with
  | none => none
  | some (s2, _) =>
    match transform_all_leds_colors max_leds s2 (duration / 2) steps s e2 with
    | none => none
    | some (s3, _) => some s3

lemma f32ToU8_ofU8 (c : U8) : f32ToU8 ((c.val : ℚ)) = c := by
  unfold f32ToU8
  have h1 : ⌊((c.val : ℚ))⌋ = (c.val : ℤ) := by
    exact_mod_cast Int.floor_intCast (α := ℚ) (c.val : ℤ)
  apply Fin.ext
  simp only [h1, Int.toNat_natCast]
  have := c.isLt
  omega

lemma calculate_gradients_length (s t : Color) (steps : Nat) :
    (calculate_gradients s t steps).length = steps := by
  simp [calculate_gradients]

lemma calculate_gradients_last (s t : Color) (steps : Nat) (h : 1 ≤ steps) :
    (calculate_gradients s t steps).getLast? = some t := by
  have hne : ((steps : ℚ)) ≠ 0 := by
    exact Nat.cast_ne_zero.mpr (by omega)
  have hlen : (calculate_gradients s t steps).length = steps :=
    calculate_gradients_length s t steps
  rw [List.getLast?_eq_getElem?, hlen]
  have hidx : steps - 1 < steps := by omega
  rw [calculate_gradients]
  rw [List.getElem?_map, List.getElem?_range hidx]
  have hstep : ((steps - 1 : Nat) + 1) = steps := by omega
  simp only [Option.map_some']
  have hcast : ((steps - 1 : Nat) : ℚ) + 1 = (steps : ℚ) := by
    exact_mod_cast hstep
  have hval : ∀ c0 c1 : U8,
      f32ToU8 ((c0.val : ℚ) * (1 - 1) + (c1.val : ℚ) * 1) = c1 := by
    intro c0 c1
    have : (c0.val : ℚ) * (1 - 1) + (c1.val : ℚ) * 1 = (c1.val : ℚ) := by ring
    rw [this]; exact f32ToU8_ofU8 c1
  congr 1
  cases t with
  | mk r g b =>
    simp only [Nat.cast_add, Nat.cast_one, hcast, div_self hne, hval]

lemma calculate_gradients_one (s t : Color) :
    calculate_gradients s t 1 = [t] := by
  have hlast := calculate_gradients_last s t 1 (le_refl 1)
  have hlen := calculate_gradients_length s t 1
  match hm : calculate_gradients s t 1 with
  | [] => rw [hm] at hlen; simp at hlen
  | [x] =>
    rw [hm] at hlast
    simp [List.getLast?] at hlast
    rw [hlast]
  | x :: y :: rest => rw [hm] at hlen; simp at hlen

/-- C1: for every pair of colors and every `steps ≥ 1`, `calculate_gradients`
returns exactly `steps` colors, the last of which is exactly the target; in
particular for `steps = 1` it returns exactly `[target]`. -/
theorem claim_gradient_length_last (s t : Color) (steps : Nat) (h : 1 ≤ steps) :
    (calculate_gradients s t steps).length = steps
    ∧ (calculate_gradients s t steps).getLast? = some t
    ∧ (steps = 1 → calculate_gradients s t steps = [t]) :=
  ⟨calculate_gradients_length s t steps,
   calculate_gradients_last s t steps h,
   fun h1 => h1 ▸ calculate_gradients_one s t⟩

/-- C1 witness: the theorem applied at a concrete input. -/
theorem claim_gradient_length_last_witness :
    (calculate_gradients ⟨10, 20, 30⟩ ⟨200, 100, 0⟩ 3).length = 3
    ∧ (calculate_gradients ⟨10, 20, 30⟩ ⟨200, 100, 0⟩ 3).getLast? = some ⟨200, 100, 0⟩
    ∧ (3 = 1 → calculate_gradients ⟨10, 20, 30⟩ ⟨200, 100, 0⟩ 3 = [⟨200, 100, 0⟩]) :=
  claim_gradient_length_last ⟨10, 20, 30⟩ ⟨200, 100, 0⟩ 3 (by decide)

lemma retryLoop_true_iff (ok : Nat → Bool) (start count : Nat) :
    (retryLoop ok start count).1 = true ↔ ∃ i, i < count ∧ ok (start + i) = true := by
  induction count generalizing start with
  | zero => simp [retryLoop]
  | succ c ih =>
    by_cases h : ok start = true
    · simp only [retryLoop, h, if_pos rfl]
      constructor
      · intro _; exact ⟨0, by omega, by simpa using h⟩
      · intro _; rfl
    · simp only [retryLoop, h]
      rw [if_neg (by simp [h])]
      simp only []
      rw [ih (start + 1)]
      constructor
      · rintro ⟨i, hi, hoki⟩
        exact ⟨i + 1, by omega, by rw [show start + (i + 1) = start + 1 + i by omega]; exact hoki⟩
      · rintro ⟨i, hi, hoki⟩
        match i with
        | 0 => exact absurd (by simpa using hoki) h
        | j + 1 =>
          exact ⟨j, by omega, by rw [show start + 1 + j = start + (j + 1) by omega]; exact hoki⟩

lemma attempt_range_shift (start c : Nat) :
    (List.range (c + 1)).map (fun i => IOEvent.attempt (start + i))
      = IOEvent.attempt start :: (List.range c).map (fun i => IOEvent.attempt (start + 1 + i)) := by
  rw [List.range_succ_eq_map, List.map_cons, List.map_map]
  refine congrArg₂ List.cons (by simp) (List.map_congr_left ?_)
  intro i _
  simp only [Function.comp_apply]
  exact congrArg IOEvent.attempt (by omega)

lemma retryLoop_all_fail (ok : Nat → Bool) (start count : Nat)
    (h : ∀ i, i < count → ok (start + i) = false) :
    retryLoop ok start count
      = (false, (List.range count).map (fun i => IOEvent.attempt (start + i))) := by
  induction count generalizing start with
  | zero => simp [retryLoop]
  | succ c ih =>
    have h0 : ok start = false := by simpa using h 0 (by omega)
    have hrest : ∀ i, i < c → ok (start + 1 + i) = false := by
      intro i hi
      rw [show start + 1 + i = start + (i + 1) by omega]
      exact h (i + 1) (by omega)
    rw [attempt_range_shift]
    simp only [retryLoop, h0]
    rw [if_neg (by simp)]
    rw [ih (start + 1) hrest]

lemma retryLoop_first_success (ok : Nat → Bool) (start count k : Nat)
    (hk : k < count) (hok : ok (start + k) = true)
    (hprev : ∀ i, i < k → ok (start + i) = false) :
    retryLoop ok start count
      = (true, (List.range (k + 1)).map (fun i => IOEvent.attempt (start + i))) := by
  induction count generalizing start k with
  | zero => omega
  | succ c ih =>
    match k with
    | 0 =>
      have h0 : ok start = true := by simpa using hok
      simp [retryLoop, h0, List.range_succ]
    | j + 1 =>
      have h0 : ok start = false := by simpa using hprev 0 (by omega)
      have hok1 : ok (start + 1 + j) = true := by
        rw [show start + 1 + j = start + (j + 1) by omega]; exact hok
      have hprev1 : ∀ i, i < j → ok (start + 1 + i) = false := by
        intro i hi
        rw [show start + 1 + i = start + (i + 1) by omega]
        exact hprev (i + 1) (by omega)
      rw [show j + 1 + 1 = (j + 1) + 1 by rfl, attempt_range_shift]
      simp only [retryLoop, h0]
      rw [if_neg (by simp)]
      rw [ih (start + 1) j (by omega) hok1 hprev1]

lemma send_ok_iff (ok : Nat → Bool) (feature : List U8) :
    (send_feature_to_blinkstick ok feature).1 = Except.ok ()
      ↔ ∃ i, i < 6 ∧ ok i = true := by
  rcases hr : retryLoop ok 0 5 with ⟨b, evs⟩
  cases b with
  | true =>
    have hex : ∃ i, i < 5 ∧ ok (0 + i) = true :=
      (retryLoop_true_iff ok 0 5).mp (by rw [hr])
    simp only [send_feature_to_blinkstick, hr]
    constructor
    · intro _
      obtain ⟨i, hi, hoki⟩ := hex
      exact ⟨i, by omega, by simpa using hoki⟩
    · intro _; trivial
  | false =>
    have hnex : ¬ ∃ i, i < 5 ∧ ok (0 + i) = true := by
      intro hc
      have := (retryLoop_true_iff ok 0 5).mpr hc
      rw [hr] at this
      simp at this
    by_cases h5 : ok 5 = true
    · simp only [send_feature_to_blinkstick, hr, h5, if_pos rfl]
      constructor
      · intro _; exact ⟨5, by omega, h5⟩
      · intro _; trivial
    · simp only [send_feature_to_blinkstick, hr]
      rw [if_neg h5]
      constructor
      · intro hc; exact absurd hc (by simp)
      · rintro ⟨i, hi, hoki⟩
        by_cases hlt : i < 5
        · exact absurd ⟨i, hlt, by simpa using hoki⟩ hnex
        · exact absurd (show ok 5 = true by rw [show (5 : Nat) = i by omega]; exact hoki) h5

lemma send_error_iff (ok : Nat → Bool) (feature : List U8) :
    (send_feature_to_blinkstick ok feature).1 = Except.error ⟨FeatureErrorType.Send⟩
      ↔ ∀ i, i < 6 → ok i = false := by
  have hcases : (send_feature_to_blinkstick ok feature).1 = Except.ok ()
      ∨ (send_feature_to_blinkstick ok feature).1 = Except.error ⟨FeatureErrorType.Send⟩ := by
    rcases hr : retryLoop ok 0 5 with ⟨b, evs⟩
    cases b
    · by_cases h5 : ok 5 = true
      · exact Or.inl (by simp [send_feature_to_blinkstick, hr, h5])
      · refine Or.inr ?_
        simp only [send_feature_to_blinkstick, hr]
        rw [if_neg h5]
    · exact Or.inl (by simp [send_feature_to_blinkstick, hr])
  constructor
  · intro herr i hi
    rcases Bool.eq_false_or_eq_true (ok i) with ht | hf
    · have hok := (send_ok_iff ok feature).mpr ⟨i, hi, ht⟩
      rw [hok] at herr
      exact absurd herr (by simp)
    · exact hf
  · intro hall
    rcases hcases with hok | herr
    · obtain ⟨i, hi, hoki⟩ := (send_ok_iff ok feature).mp hok
      exact absurd hoki (by simp [hall i hi])
    · exact herr

lemma send_trace_all_immediate_fail (ok : Nat → Bool) (feature : List U8)
    (h : ∀ i, i < 5 → ok i = false) :
    (send_feature_to_blinkstick ok feature).2
      = [IOEvent.attempt 0, IOEvent.attempt 1, IOEvent.attempt 2, IOEvent.attempt 3,
         IOEvent.attempt 4, IOEvent.sleepMs 10, IOEvent.attempt 5] := by
  have hr := retryLoop_all_fail ok 0 5 (by intro i hi; simpa using h i hi)
  by_cases h5 : ok 5 = true
  · simp [send_feature_to_blinkstick, hr, h5, List.range_succ]
  · simp only [send_feature_to_blinkstick, hr]
    rw [if_neg h5]
    simp [List.range_succ]

lemma send_trace_first_success (ok : Nat → Bool) (feature : List U8) (k : Nat)
    (hk : k < 5) (hok : ok k = true) (hprev : ∀ i, i < k → ok i = false) :
    send_feature_to_blinkstick ok feature
      = (Except.ok (), (List.range (k + 1)).map IOEvent.attempt) := by
  have hr := retryLoop_first_success ok 0 5 k hk (by simpa using hok)
    (by intro i hi; simpa using hprev i hi)
  simp only [send_feature_to_blinkstick, hr]
  refine Prod.ext rfl ?_
  refine List.map_congr_left ?_
  intro i _
  simp

lemma get_ok_iff (ok : Nat → Bool) (devBuf : List U8) (id : U8) :
    (get_feature_from_blinkstick ok devBuf id).1 = Except.ok devBuf
      ↔ ∃ i, i < 6 ∧ ok i = true := by
  rcases hr : retryLoop ok 0 5 with ⟨b, evs⟩
  cases b with
  | true =>
    have hex : ∃ i, i < 5 ∧ ok (0 + i) = true :=
      (retryLoop_true_iff ok 0 5).mp (by rw [hr])
    simp only [get_feature_from_blinkstick, hr]
    constructor
    · intro _
      obtain ⟨i, hi, hoki⟩ := hex
      exact ⟨i, by omega, by simpa using hoki⟩
    · intro _; trivial
  | false =>
    have hnex : ¬ ∃ i, i < 5 ∧ ok (0 + i) = true := by
      intro hc
      have := (retryLoop_true_iff ok 0 5).mpr hc
      rw [hr] at this
      simp at this
    by_cases h5 : ok 5 = true
    · simp only [get_feature_from_blinkstick, hr, h5, if_pos rfl]
      constructor
      · intro _; exact ⟨5, by omega, h5⟩
      · intro _; trivial
    · simp only [get_feature_from_blinkstick, hr]
      rw [if_neg h5]
      constructor
      · intro hc; exact absurd hc (by simp)
      · rintro ⟨i, hi, hoki⟩
        by_cases hlt : i < 5
        · exact absurd ⟨i, hlt, by simpa using hoki⟩ hnex
        · exact absurd (show ok 5 = true by rw [show (5 : Nat) = i by omega]; exact hoki) h5

lemma get_error_iff (ok : Nat → Bool) (devBuf : List U8) (id : U8) :
    (get_feature_from_blinkstick ok devBuf id).1 = Except.error ⟨FeatureErrorType.Get⟩
      ↔ ∀ i, i < 6 → ok i = false := by
  have hcases : (get_feature_from_blinkstick ok devBuf id).1 = Except.ok devBuf
      ∨ (get_feature_from_blinkstick ok devBuf id).1 = Except.error ⟨FeatureErrorType.Get⟩ := by
    rcases hr : retryLoop ok 0 5 with ⟨b, evs⟩
    cases b
    · by_cases h5 : ok 5 = true
      · exact Or.inl (by simp [get_feature_from_blinkstick, hr, h5])
      · refine Or.inr ?_
        simp only [get_feature_from_blinkstick, hr]
        rw [if_neg h5]
    · exact Or.inl (by simp [get_feature_from_blinkstick, hr])
  constructor
  · intro herr i hi
    rcases Bool.eq_false_or_eq_true (ok i) with ht | hf
    · have hok := (get_ok_iff ok devBuf id).mpr ⟨i, hi, ht⟩
      rw [hok] at herr
      exact absurd herr (by simp)
    · exact hf
  · intro hall
    rcases hcases with hok | herr
    · obtain ⟨i, hi, hoki⟩ := (get_ok_iff ok devBuf id).mp hok
      exact absurd hoki (by simp [hall i hi])
    · exact herr

lemma get_trace_all_immediate_fail (ok : Nat → Bool) (devBuf : List U8) (id : U8)
    (h : ∀ i, i < 5 → ok i = false) :
    (get_feature_from_blinkstick ok devBuf id).2
      = [IOEvent.attempt 0, IOEvent.attempt 1, IOEvent.attempt 2, IOEvent.attempt 3,
         IOEvent.attempt 4, IOEvent.sleepMs 10, IOEvent.attempt 5] := by
  have hr := retryLoop_all_fail ok 0 5 (by intro i hi; simpa using h i hi)
  by_cases h5 : ok 5 = true
  · simp [get_feature_from_blinkstick, hr, h5, List.range_succ]
  · simp only [get_feature_from_blinkstick, hr]
    rw [if_neg h5]
    simp [List.range_succ]

lemma get_trace_first_success (ok : Nat → Bool) (devBuf : List U8) (id : U8) (k : Nat)
    (hk : k < 5) (hok : ok k = true) (hprev : ∀ i, i < k → ok i = false) :
    get_feature_from_blinkstick ok devBuf id
      = (Except.ok devBuf, (List.range (k + 1)).map IOEvent.attempt) := by
  have hr := retryLoop_first_success ok 0 5 k hk (by simpa using hok)
    (by intro i hi; simpa using hprev i hi)
  simp only [get_feature_from_blinkstick, hr]
  refine Prod.ext rfl ?_
  refine List.map_congr_left ?_
  intro i _
  simp

/-- C2: the send operation succeeds as soon as any of at most 5 immediate
attempts succeeds (making exactly the attempts up to the first success); if
all 5 immediate attempts fail it sleeps 10 ms and makes exactly one final
attempt; it returns the `Send` error exactly when all 6 attempts fail (so a
6th-attempt success after 5 failures is still a success); the receive
operation behaves identically with the `Get` error. -/
theorem claim_retry_semantics (ok : Nat → Bool) (feature devBuf : List U8) (id : U8) :
    ((send_feature_to_blinkstick ok feature).1 = Except.ok () ↔ ∃ i, i < 6 ∧ ok i = true)
    ∧ ((send_feature_to_blinkstick ok feature).1 = Except.error ⟨FeatureErrorType.Send⟩
        ↔ ∀ i, i < 6 → ok i = false)
    ∧ ((∀ i, i < 5 → ok i = false) →
        (send_feature_to_blinkstick ok feature).2
          = [IOEvent.attempt 0, IOEvent.attempt 1, IOEvent.attempt 2, IOEvent.attempt 3,
             IOEvent.attempt 4, IOEvent.sleepMs 10, IOEvent.attempt 5])
    ∧ (∀ k, k < 5 → ok k = true → (∀ i, i < k → ok i = false) →
        send_feature_to_blinkstick ok feature
          = (Except.ok (), (List.range (k + 1)).map IOEvent.attempt))
    ∧ ((get_feature_from_blinkstick ok devBuf id).1 = Except.ok devBuf
        ↔ ∃ i, i < 6 ∧ ok i = true)
    ∧ ((get_feature_from_blinkstick ok devBuf id).1 = Except.error ⟨FeatureErrorType.Get⟩
        ↔ ∀ i, i < 6 → ok i = false)
    ∧ ((∀ i, i < 5 → ok i = false) →
        (get_feature_from_blinkstick ok devBuf id).2
          = [IOEvent.attempt 0, IOEvent.attempt 1, IOEvent.attempt 2, IOEvent.attempt 3,
             IOEvent.attempt 4, IOEvent.sleepMs 10, IOEvent.attempt 5])
    ∧ (∀ k, k < 5 → ok k = true → (∀ i, i < k → ok i = false) →
        get_feature_from_blinkstick ok devBuf id
          = (Except.ok devBuf, (List.range (k + 1)).map IOEvent.attempt)) :=
  ⟨send_ok_iff ok feature,
   send_error_iff ok feature,
   send_trace_all_immediate_fail ok feature,
   fun k hk hok hprev => send_trace_first_success ok feature k hk hok hprev,
   get_ok_iff ok devBuf id,
   get_error_iff ok devBuf id,
   get_trace_all_immediate_fail ok devBuf id,
   fun k hk hok hprev => get_trace_first_success ok devBuf id k hk hok hprev⟩

/-- C2 witness: scenario F — 5 consecutive failures then a 6th-attempt
success still returns success, with the expected attempt/sleep trace. -/
theorem claim_retry_semantics_witness :
    (send_feature_to_blinkstick (fun i => decide (i = 5)) []).1 = Except.ok ()
    ∧ (send_feature_to_blinkstick (fun i => decide (i = 5)) []).2
        = [IOEvent.attempt 0, IOEvent.attempt 1, IOEvent.attempt 2, IOEvent.attempt 3,
           IOEvent.attempt 4, IOEvent.sleepMs 10, IOEvent.attempt 5] :=
  ⟨((claim_retry_semantics (fun i => decide (i = 5)) [] [] 0).1).mpr ⟨5, by decide, by decide⟩,
   ((claim_retry_semantics (fun i => decide (i = 5)) [] [] 0).2.2.1) (by decide)⟩

/-! ## Byte-level facts about the frame codec -/

lemma getD_set_self (l : List U8) (i : Nat) (a : U8) (h : i < l.length) :
    (l.set i a).getD i 0 = a := by
  rw [List.getD_eq_getElem?_getD, List.getElem?_set_eq_of_lt a h]
  rfl

lemma getD_set_ne (l : List U8) (i j : Nat) (a : U8) (h : i ≠ j) :
    (l.set i a).getD j 0 = l.getD j 0 := by
  rw [List.getD_eq_getElem?_getD, List.getElem?_set_ne h, ← List.getD_eq_getElem?_getD]

lemma getD_take (l : List U8) (n j : Nat) (h : j < n) :
    (l.take n).getD j 0 = l.getD j 0 := by
  rw [List.getD_eq_getElem?_getD, List.getElem?_take, if_pos h, ← List.getD_eq_getElem?_getD]

lemma initReportBuf_length : initReportBuf.length = 100 := by
  simp [initReportBuf, REPORT_ARRAY_BYTES]

lemma initReportBuf_getD_zero : initReportBuf.getD 0 0 = 6 := by
  rfl

lemma initReportBuf_getD (j : Nat) (h : j ≠ 0) : initReportBuf.getD j 0 = 0 := by
  rw [initReportBuf, List.getD_eq_getElem?_getD,
    List.getElem?_set_ne (show (0 : Nat) ≠ j by omega), List.getElem?_replicate]
  by_cases hj : j < REPORT_ARRAY_BYTES
  · rw [if_pos hj]; rfl
  · rw [if_neg hj]; rfl

lemma val_mul3_add2 (a : U8) : ((a * 3 + 2 : U8)).val = (a.val * 3 + 2) % 256 := by
  rw [Fin.val_add, Fin.val_mul]
  have h3 : ((3 : U8)).val = 3 := rfl
  have h2 : ((2 : U8)).val = 2 := rfl
  rw [h3, h2]
  omega

lemma val_mul3_add2_of_le (a : U8) (h : a.val ≤ 84) :
    ((a * 3 + 2 : U8)).val = a.val * 3 + 2 := by
  rw [val_mul3_add2]
  omega

lemma led_offset_eq (led : U8) (h : led.val ≤ 84) : led_offset led = led.val * 3 + 2 :=
  val_mul3_add2_of_le led h

lemma report_length_eq (max_leds : U8) (h : max_leds.val ≤ 84) :
    report_length max_leds = max_leds.val * 3 + 2 :=
  val_mul3_add2_of_le max_leds h

lemma getD_set3 (buf : List U8) (hlen : buf.length = 100) (lo : Nat) (hlo : lo + 2 < 100)
    (g r b : U8) (j : Nat) :
    ((((buf.set lo g).set (lo + 1) r).set (lo + 2) b)).getD j 0
      = if j = lo then g else if j = lo + 1 then r else if j = lo + 2 then b
        else buf.getD j 0 := by
  have hlen2 : ((buf.set lo g).set (lo + 1) r).length = 100 := by simp [hlen]
  have hlen1 : (buf.set lo g).length = 100 := by simp [hlen]
  by_cases h2 : j = lo + 2
  · rw [h2, getD_set_self _ _ _ (by omega)]
    rw [if_neg (by omega), if_neg (by omega), if_pos rfl]
  · rw [getD_set_ne _ (lo + 2) j _ (by omega)]
    by_cases h1 : j = lo + 1
    · rw [h1, getD_set_self _ _ _ (by omega)]
      rw [if_neg (by omega), if_pos rfl]
    · rw [getD_set_ne _ (lo + 1) j _ (by omega)]
      by_cases h0 : j = lo
      · rw [h0, getD_set_self _ _ _ (by omega), if_pos rfl]
      · rw [getD_set_ne _ lo j _ (by omega), if_neg h0, if_neg h1, if_neg h2]

lemma writeLedsLoop_ok (max_leds : U8) (color : Color) (hmax : max_leds.val ≤ 32) :
    ∀ lds : List U8, (∀ l ∈ lds, l.val < max_leds.val) →
    ∀ buf : List U8, buf.length = 100 →
    ∃ bufF, writeLedsLoop max_leds color lds buf = Except.ok bufF
      ∧ bufF.length = 100
      ∧ ∀ j : Nat,
          bufF.getD j 0 =
            if ∃ l ∈ lds, j = l.val * 3 + 2 then color.g
            else if ∃ l ∈ lds, j = l.val * 3 + 3 then color.r
            else if ∃ l ∈ lds, j = l.val * 3 + 4 then color.b
            else buf.getD j 0 := by
  intro lds
  induction lds with
  | nil =>
    intro _ buf hlen
    exact ⟨buf, rfl, hlen, fun j => by simp⟩
  | cons l0 rest ih =>
    intro hin buf hlen
    have hl0 : l0.val < max_leds.val := hin l0 (List.mem_cons_self l0 rest)
    have hoff : led_offset l0 = l0.val * 3 + 2 := led_offset_eq l0 (by omega)
    have hbound : report_length max_leds = max_leds.val * 3 + 2 :=
      report_length_eq max_leds (by omega)
    have hcheck : ¬ report_length max_leds ≤ led_offset l0 := by
      rw [hoff, hbound]; omega
    have hlen1 :
        ((((buf.set (led_offset l0) color.g).set (led_offset l0 + 1) color.r).set
          (led_offset l0 + 2) color.b)).length = 100 := by
      simp [hlen]
    obtain ⟨bufF, heq, hlenF, hchar⟩ :=
      ih (fun l hl => hin l (List.mem_cons_of_mem l0 hl)) _ hlen1
    refine ⟨bufF, ?_, hlenF, fun j => ?_⟩
    · simp only [writeLedsLoop]
      rw [if_neg hcheck]
      exact heq
    · rw [hchar j, getD_set3 buf hlen (led_offset l0) (by omega) _ _ _ j, hoff]
      by_cases hA2 : ∃ l ∈ rest, j = l.val * 3 + 2
      · obtain ⟨l, hl, hj⟩ := hA2
        rw [if_pos ⟨l, hl, hj⟩, if_pos ⟨l, List.mem_cons_of_mem l0 hl, hj⟩]
      · rw [if_neg hA2]
        by_cases hA3 : ∃ l ∈ rest, j = l.val * 3 + 3
        · obtain ⟨l, hl, hj⟩ := hA3
          have hB2 : ¬ ∃ l2 ∈ l0 :: rest, j = l2.val * 3 + 2 := by
            rintro ⟨l2, _, hj2⟩; omega
          rw [if_pos ⟨l, hl, hj⟩, if_neg hB2, if_pos ⟨l, List.mem_cons_of_mem l0 hl, hj⟩]
        · rw [if_neg hA3]
          by_cases hA4 : ∃ l ∈ rest, j = l.val * 3 + 4
          · obtain ⟨l, hl, hj⟩ := hA4
            have hB2 : ¬ ∃ l2 ∈ l0 :: rest, j = l2.val * 3 + 2 := by
              rintro ⟨l2, _, hj2⟩; omega
            have hB3 : ¬ ∃ l2 ∈ l0 :: rest, j = l2.val * 3 + 3 := by
              rintro ⟨l2, _, hj2⟩; omega
            rw [if_pos ⟨l, hl, hj⟩, if_neg hB2, if_neg hB3,
              if_pos ⟨l, List.mem_cons_of_mem l0 hl, hj⟩]
          · rw [if_neg hA4]
            by_cases hj0 : j = l0.val * 3 + 2
            · rw [if_pos hj0, if_pos ⟨l0, List.mem_cons_self l0 rest, hj0⟩]
            · rw [if_neg hj0]
              by_cases hj1 : j = l0.val * 3 + 2 + 1
              · have hB2 : ¬ ∃ l2 ∈ l0 :: rest, j = l2.val * 3 + 2 := by
                  rintro ⟨l2, hl2, hj2⟩
                  rcases List.mem_cons.mp hl2 with h | h
                  · subst h; omega
                  · exact hA2 ⟨l2, h, hj2⟩
                rw [if_pos hj1, if_neg hB2,
                  if_pos ⟨l0, List.mem_cons_self l0 rest, by omega⟩]
              · rw [if_neg hj1]
                by_cases hj2 : j = l0.val * 3 + 2 + 2
                · have hB2 : ¬ ∃ l2 ∈ l0 :: rest, j = l2.val * 3 + 2 := by
                    rintro ⟨l2, hl2, hj22⟩
                    rcases List.mem_cons.mp hl2 with h | h
                    · subst h; omega
                    · exact hA2 ⟨l2, h, hj22⟩
                  have hB3 : ¬ ∃ l2 ∈ l0 :: rest, j = l2.val * 3 + 3 := by
                    rintro ⟨l2, hl2, hj23⟩
                    rcases List.mem_cons.mp hl2 with h | h
                    · subst h; omega
                    · exact hA3 ⟨l2, h, hj23⟩
                  rw [if_pos hj2, if_neg hB2, if_neg hB3,
                    if_pos ⟨l0, List.mem_cons_self l0 rest, by omega⟩]
                · rw [if_neg hj2]
                  have hB2 : ¬ ∃ l2 ∈ l0 :: rest, j = l2.val * 3 + 2 := by
                    rintro ⟨l2, hl2, hj22⟩
                    rcases List.mem_cons.mp hl2 with h | h
                    · subst h; omega
                    · exact hA2 ⟨l2, h, hj22⟩
                  have hB3 : ¬ ∃ l2 ∈ l0 :: rest, j = l2.val * 3 + 3 := by
                    rintro ⟨l2, hl2, hj23⟩
                    rcases List.mem_cons.mp hl2 with h | h
                    · subst h; omega
                    · exact hA3 ⟨l2, h, hj23⟩
                  have hB4 : ¬ ∃ l2 ∈ l0 :: rest, j = l2.val * 3 + 4 := by
                    rintro ⟨l2, hl2, hj24⟩
                    rcases List.mem_cons.mp hl2 with h | h
                    · subst h; omega
                    · exact hA4 ⟨l2, h, hj24⟩
                  rw [if_neg hB2, if_neg hB3, if_neg hB4]

/-- C6: for in-range leds the single-LED write is exactly the 6-byte frame
`[0x5, 0, led, r, g, b]` (flat R,G,B order); multi-LED writes build the 0x6
report with each addressed led's triplet at byte offset `led*3 + 2` in
G,R,B order; and the read path reconstructs each `Color` from those offsets
back into R,G,B field order. -/
theorem claim_frame_codec (max_leds : U8) (hmax : max_leds.val ≤ 32) :
    (∀ (led : U8) (c : Color), led.val < max_leds.val →
      set_led_color_frame max_leds led c = Except.ok [5, 0, led, c.r, c.g, c.b])
    ∧ (∀ (leds : List U8) (c : Color), (∀ l ∈ leds, l.val < max_leds.val) →
        ∃ frame, set_multiple_leds_color max_leds leds c = Except.ok frame
          ∧ frame.length = report_length max_leds
          ∧ frame.getD 0 0 = 6
          ∧ ∀ l ∈ leds, frame.getD (l.val * 3 + 2) 0 = c.g
              ∧ frame.getD (l.val * 3 + 3) 0 = c.r
              ∧ frame.getD (l.val * 3 + 4) 0 = c.b)
    ∧ (∀ (buf : List U8) (led : Nat), led < max_leds.val →
        (decodeLedColors max_leds buf).getD led COLOR_OFF
          = { r := buf.getD (led * 3 + 2 + 1) 0
              g := buf.getD (led * 3 + 2) 0
              b := buf.getD (led * 3 + 2 + 2) 0 }) := by
  have hbound : report_length max_leds = max_leds.val * 3 + 2 :=
    report_length_eq max_leds (by omega)
  refine ⟨?_, ?_, ?_⟩
  · intro led c hled
    rw [set_led_color_frame, if_neg (Fin.not_le.mpr (Fin.lt_def.mpr hled))]
  · intro leds c hin
    obtain ⟨bufF, heq, hlenF, hchar⟩ :=
      writeLedsLoop_ok max_leds c hmax leds hin initReportBuf initReportBuf_length
    refine ⟨bufF.take (report_length max_leds), ?_, ?_, ?_, ?_⟩
    · rw [set_multiple_leds_color, heq]
      rfl
    · rw [List.length_take, hlenF, hbound]
      omega
    · rw [getD_take _ _ _ (by rw [hbound]; omega), hchar 0]
      rw [if_neg (by rintro ⟨l, _, h⟩; omega), if_neg (by rintro ⟨l, _, h⟩; omega),
        if_neg (by rintro ⟨l, _, h⟩; omega)]
      exact initReportBuf_getD_zero
    · intro l hl
      have hlv : l.val < max_leds.val := hin l hl
      refine ⟨?_, ?_, ?_⟩
      · rw [getD_take _ _ _ (by rw [hbound]; omega), hchar _, if_pos ⟨l, hl, rfl⟩]
      · rw [getD_take _ _ _ (by rw [hbound]; omega), hchar _,
          if_neg (by rintro ⟨l2, _, h⟩; omega), if_pos ⟨l, hl, rfl⟩]
      · rw [getD_take _ _ _ (by rw [hbound]; omega), hchar _,
          if_neg (by rintro ⟨l2, _, h⟩; omega), if_neg (by rintro ⟨l2, _, h⟩; omega),
          if_pos ⟨l, hl, rfl⟩]
  · intro buf led hled
    rw [decodeLedColors, List.getD_eq_getElem?_getD, List.getElem?_map,
      List.getElem?_range hled]
    rfl

set_option maxRecDepth 4000 in
/-- C6 witness: the codec facts instantiated on a concrete 8-led device. -/
theorem claim_frame_codec_witness :
    set_led_color_frame 8 2 ⟨9, 8, 7⟩ = Except.ok [5, 0, 2, 9, 8, 7]
    ∧ (∃ frame, set_multiple_leds_color 8 [1, 3] ⟨9, 8, 7⟩ = Except.ok frame
        ∧ frame.length = report_length 8
        ∧ frame.getD 0 0 = 6
        ∧ ∀ l ∈ [(1 : U8), 3], frame.getD (l.val * 3 + 2) 0 = (8 : U8)
            ∧ frame.getD (l.val * 3 + 3) 0 = (9 : U8)
            ∧ frame.getD (l.val * 3 + 4) 0 = (7 : U8))
    ∧ (decodeLedColors 8 initReportBuf).getD 0 COLOR_OFF
        = { r := initReportBuf.getD 3 0
            g := initReportBuf.getD 2 0
            b := initReportBuf.getD 4 0 } :=
  ⟨(claim_frame_codec 8 (by decide)).1 2 ⟨9, 8, 7⟩ (by decide),
   (claim_frame_codec 8 (by decide)).2.1 [1, 3] ⟨9, 8, 7⟩ (by decide),
   (claim_frame_codec 8 (by decide)).2.2 initReportBuf 0 (by decide)⟩

/-- C9: both the per-led offset and the bound of `set_multiple_leds_color`
are computed in u8 arithmetic modulo 256; for every `led ≥ 85` the true
offset `led*3 + 2` overflows a u8 and the wrapped offset is compared
instead; concretely led 85 on a 32-led device passes the bound check
(wrapped offset 1 < 98) and its G,R,B bytes are written at offsets 1..3 —
inside the metadata byte and led 0 slots — instead of being rejected. -/
theorem claim_offset_wraps_u8 :
    (∀ led : U8, led_offset led = (led.val * 3 + 2) % 256)
    ∧ (∀ max_leds : U8, report_length max_leds = (max_leds.val * 3 + 2) % 256)
    ∧ (∀ led : U8, 85 ≤ led.val → 256 ≤ led.val * 3 + 2 ∧ led_offset led ≠ led.val * 3 + 2)
    ∧ ((32 : U8).val ≤ (85 : U8).val ∧ led_offset 85 = 1
        ∧ ¬ report_length 32 ≤ led_offset 85
        ∧ ∀ c : Color, (set_multiple_leds_color 32 [85] c).toOption.map
            (fun f => (f.getD 1 0, f.getD 2 0, f.getD 3 0)) = some (c.g, c.r, c.b)) := by
  refine ⟨fun led => val_mul3_add2 led, fun m => val_mul3_add2 m, ?_, ?_⟩
  · intro led h
    have hv := led.isLt
    have hlo : led_offset led = (led.val * 3 + 2) % 256 := val_mul3_add2 led
    constructor
    · omega
    · rw [hlo]
      omega
  · refine ⟨by decide, by decide, by decide, fun c => rfl⟩

/-- C9 witness: the overflow facts applied at the concrete led 170. -/
theorem claim_offset_wraps_u8_witness :
    256 ≤ (170 : U8).val * 3 + 2 ∧ led_offset 170 ≠ (170 : U8).val * 3 + 2 :=
  claim_offset_wraps_u8.2.2.1 170 (by decide)

/-- C3: evaluation at the failing input.  Led 85 is out of range for a
32-led device, yet `set_multiple_leds_color` accepts it (its u8-wrapped
offset passes the bound check) instead of panicking as the claim — and the
function's own documentation — require; additionally `set_led_color`'s
panic message names the led but not the valid range. -/
theorem claim_oob_failing_input :
    (32 : U8).val ≤ (85 : U8).val
    ∧ (set_multiple_leds_color 32 [85] ⟨10, 20, 30⟩).isOk = true
    ∧ set_led_color_frame 32 85 ⟨10, 20, 30⟩
        = Except.error "Led 85 is out of bounds for Blinkstick device" := by
  refine ⟨by decide, by decide, ?_⟩
  rfl

lemma enum_take_mem {α : Type} (colors : List α) (n : Nat) (p : Nat × α)
    (hp : p ∈ colors.enum.take n) : p.1 < n ∧ colors[p.1]? = some p.2 := by
  obtain ⟨k, hk⟩ := List.mem_iff_getElem?.mp hp
  rw [List.getElem?_take] at hk
  by_cases hklt : k < n
  · rw [if_pos hklt, List.getElem?_enum] at hk
    match hc : colors[k]? with
    | none => rw [hc] at hk; exact absurd hk (by simp)
    | some a =>
      rw [hc] at hk
      have hk2 : (k, a) = p := by simpa using hk
      rw [← hk2]
      exact ⟨hklt, hc⟩
  · rw [if_neg hklt] at hk
    exact absurd hk (by simp)

lemma enum_take_mem_of_lt {α : Type} (colors : List α) (n i : Nat) (hi : i < n)
    (hic : i < colors.length) : (i, colors[i]) ∈ colors.enum.take n := by
  apply List.mem_iff_getElem?.mpr
  refine ⟨i, ?_⟩
  rw [List.getElem?_take, if_pos hi, List.getElem?_enum, List.getElem?_eq_getElem hic]
  rfl

lemma enum_take_fst_inj {α : Type} (colors : List α) (n i : Nat) (c c2 : α)
    (h1 : (i, c) ∈ colors.enum.take n) (h2 : (i, c2) ∈ colors.enum.take n) : c = c2 := by
  have e1 := (enum_take_mem colors n _ h1).2
  have e2 := (enum_take_mem colors n _ h2).2
  rw [e1] at e2
  exact Option.some.inj e2

lemma writeColorsLoop_ok (max_leds : U8) (hmax : max_leds.val ≤ 32) :
    ∀ pairs : List (Nat × Color), (∀ p ∈ pairs, p.1 < max_leds.val) →
    (∀ i c c2, (i, c) ∈ pairs → (i, c2) ∈ pairs → c = c2) →
    ∀ buf : List U8, buf.length = 100 →
    ∃ bufF, writeColorsLoop max_leds pairs buf = Except.ok bufF
      ∧ bufF.length = 100
      ∧ (∀ i c, (i, c) ∈ pairs →
          bufF.getD (i * 3 + 2) 0 = c.g ∧ bufF.getD (i * 3 + 2 + 1) 0 = c.r
            ∧ bufF.getD (i * 3 + 2 + 2) 0 = c.b)
      ∧ (∀ j, (∀ p ∈ pairs, j < p.1 * 3 + 2 ∨ p.1 * 3 + 4 < j) →
          bufF.getD j 0 = buf.getD j 0) := by
  intro pairs
  induction pairs with
  | nil =>
    intro _ _ buf hlen
    exact ⟨buf, rfl, hlen, by simp, fun j _ => rfl⟩
  | cons p0 rest ih =>
    obtain ⟨i0, c0⟩ := p0
    intro hin hinj buf hlen
    have hi0 : i0 < max_leds.val := hin (i0, c0) (List.mem_cons_self _ _)
    have hbound : report_length max_leds = max_leds.val * 3 + 2 :=
      report_length_eq max_leds (by omega)
    have hcheck : ¬ report_length max_leds ≤ i0 * 3 + 2 := by
      rw [hbound]; omega
    have hlen1 : (((buf.set (i0 * 3 + 2) c0.g).set (i0 * 3 + 2 + 1) c0.r).set
        (i0 * 3 + 2 + 2) c0.b).length = 100 := by
      simp [hlen]
    obtain ⟨bufF, heq, hlenF, hmem, hunt⟩ :=
      ih (fun p hp => hin p (List.mem_cons_of_mem _ hp))
        (fun i c c2 hc hc2 =>
          hinj i c c2 (List.mem_cons_of_mem _ hc) (List.mem_cons_of_mem _ hc2))
        _ hlen1
    refine ⟨bufF, ?_, hlenF, ?_, ?_⟩
    · simp only [writeColorsLoop]
      rw [if_neg hcheck]
      exact heq
    · rintro i c hic
      rcases List.mem_cons.mp hic with hhead | htail
    -- the head pair (i0, c0)
      · have hi : i = i0 := congrArg Prod.fst hhead
        have hc : c = c0 := congrArg Prod.snd hhead
        subst hi
        subst hc
        by_cases hmem0 : (i, c) ∈ rest
        · exact hmem i c hmem0
        · have hne : ∀ p ∈ rest, p.1 ≠ i := by
            rintro ⟨pi, pc⟩ hp hpe
            simp only at hpe
            subst hpe
            have hc2 : pc = c :=
              hinj pi pc c (List.mem_cons_of_mem _ hp) (List.mem_cons_self _ _)
            subst hc2
            exact hmem0 hp
          have hd2 : bufF.getD (i * 3 + 2) 0 = _ :=
            hunt (i * 3 + 2) (fun p hp => by have := hne p hp; omega)
          have hd3 : bufF.getD (i * 3 + 2 + 1) 0 = _ :=
            hunt (i * 3 + 2 + 1) (fun p hp => by have := hne p hp; omega)
          have hd4 : bufF.getD (i * 3 + 2 + 2) 0 = _ :=
            hunt (i * 3 + 2 + 2) (fun p hp => by have := hne p hp; omega)
          rw [hd2, hd3, hd4]
          rw [getD_set3 buf hlen (i * 3 + 2) (by omega) _ _ _ _,
            getD_set3 buf hlen (i * 3 + 2) (by omega) _ _ _ _,
            getD_set3 buf hlen (i * 3 + 2) (by omega) _ _ _ _]
          rw [if_pos rfl]
          rw [if_neg (by omega), if_pos rfl]
          rw [if_neg (by omega), if_neg (by omega), if_pos rfl]
          exact ⟨rfl, rfl, rfl⟩
      · exact hmem i c htail
    · intro j hj
      have hrest : ∀ p ∈ rest, j < p.1 * 3 + 2 ∨ p.1 * 3 + 4 < j :=
        fun p hp => hj p (List.mem_cons_of_mem _ hp)
      have h0 := hj (i0, c0) (List.mem_cons_self _ _)
      simp only at h0
      rw [hunt j hrest, getD_set3 buf hlen (i0 * 3 + 2) (by omega) _ _ _ j]
      rw [if_neg (by omega), if_neg (by omega), if_neg (by omega)]

/-- C10: `set_all_leds_colors` accepts a colors slice of any length: it never
fails, entries beyond `max_leds` are silently ignored, and missing entries
leave the zero-initialised frame, i.e. those LEDs are written off
`{0,0,0}`. -/
theorem claim_set_all_colors_any_length (max_leds : U8) (colors : List Color)
    (hmax : max_leds.val ≤ 32) :
    ∃ frame, set_all_leds_colors max_leds colors = Except.ok frame
      ∧ decodeLedColors max_leds frame
          = (List.range max_leds.val).map (fun i => colors.getD i COLOR_OFF) := by
  have hbound := report_length_eq max_leds (by omega)
  obtain ⟨bufF, heq, hlenF, hmem, hunt⟩ :=
    writeColorsLoop_ok max_leds hmax (colors.enum.take max_leds.val)
      (fun p hp => (enum_take_mem colors _ p hp).1)
      (fun i c c2 h1 h2 => enum_take_fst_inj colors _ i c c2 h1 h2)
      initReportBuf initReportBuf_length
  refine ⟨bufF.take (report_length max_leds), ?_, ?_⟩
  · rw [set_all_leds_colors, heq]
    rfl
  · rw [decodeLedColors]
    refine List.map_congr_left ?_
    intro led hled
    rw [List.mem_range] at hled
    have hp2 : led * 3 + 2 < report_length max_leds := by rw [hbound]; omega
    have hp3 : led * 3 + 2 + 1 < report_length max_leds := by rw [hbound]; omega
    have hp4 : led * 3 + 2 + 2 < report_length max_leds := by rw [hbound]; omega
    rw [getD_take _ _ _ hp3, getD_take _ _ _ hp2, getD_take _ _ _ hp4]
    by_cases hclen : led < colors.length
    · obtain ⟨hg, hr, hb⟩ :=
        hmem led colors[led] (enum_take_mem_of_lt colors _ led hled hclen)
      rw [hg, hr, hb, List.getD_eq_getElem colors COLOR_OFF hclen]
    · have hoor : ∀ p ∈ colors.enum.take max_leds.val, p.1 < colors.length := by
        intro p hp
        have he := (enum_take_mem colors _ p hp).2
        by_contra hge
        rw [List.getElem?_eq_none (by omega)] at he
        exact absurd he (by simp)
      have hz2 : bufF.getD (led * 3 + 2) 0 = 0 := by
        rw [hunt (led * 3 + 2) (fun p hp => by have := hoor p hp; omega)]
        exact initReportBuf_getD (led * 3 + 2) (by omega)
      have hz3 : bufF.getD (led * 3 + 2 + 1) 0 = 0 := by
        rw [hunt (led * 3 + 2 + 1) (fun p hp => by have := hoor p hp; omega)]
        exact initReportBuf_getD (led * 3 + 2 + 1) (by omega)
      have hz4 : bufF.getD (led * 3 + 2 + 2) 0 = 0 := by
        rw [hunt (led * 3 + 2 + 2) (fun p hp => by have := hoor p hp; omega)]
        exact initReportBuf_getD (led * 3 + 2 + 2) (by omega)
      rw [hz2, hz3, hz4, List.getD_eq_default colors COLOR_OFF (by omega)]
      rfl

/-- C10 witness: a 2-led device with a 3-entry slice (extra entry ignored)
and with a 1-entry slice (missing entry written off). -/
theorem claim_set_all_colors_any_length_witness :
    (∃ frame, set_all_leds_colors 2 [⟨1, 2, 3⟩, ⟨4, 5, 6⟩, ⟨7, 8, 9⟩] = Except.ok frame
      ∧ decodeLedColors 2 frame
          = (List.range (2 : U8).val).map
              (fun i => [(⟨1, 2, 3⟩ : Color), ⟨4, 5, 6⟩, ⟨7, 8, 9⟩].getD i COLOR_OFF))
    ∧ (∃ frame, set_all_leds_colors 2 [⟨1, 2, 3⟩] = Except.ok frame
      ∧ decodeLedColors 2 frame
          = (List.range (2 : U8).val).map
              (fun i => [(⟨1, 2, 3⟩ : Color)].getD i COLOR_OFF)) :=
  ⟨claim_set_all_colors_any_length 2 [⟨1, 2, 3⟩, ⟨4, 5, 6⟩, ⟨7, 8, 9⟩] (by decide),
   claim_set_all_colors_any_length 2 [⟨1, 2, 3⟩] (by decide)⟩

/-- C5 counterexample: with a transport that fails all 6 attempts, teardown
panics (the `unwrap` in `Drop`), refuting the claim that teardown never
fails and discards any error of the all-off command. -/
theorem claim_drop_counterexample :
    drop_blinkstick 8 (fun _ => false) = none := by
  decide

/-- C5 amended: on teardown an all-off command is unconditionally issued,
but its error is not discarded: teardown succeeds exactly when one of the
retry layer's 6 attempts succeeds, and panics (via `unwrap`) exactly when
all 6 attempts fail. -/
theorem claim_drop_issues_all_off_amended (max_leds : U8) (ok2 : Nat → Bool)
    (hmax : max_leds.val ≤ 32) :
    ((drop_blinkstick max_leds ok2 = some ()) ↔ ∃ i, i < 6 ∧ ok2 i = true)
    ∧ ((drop_blinkstick max_leds ok2 = none) ↔ ∀ i, i < 6 → ok2 i = false) := by
  have hin : ∀ l ∈ (List.range max_leds.val).map (fun i => (Fin.ofNat i : U8)),
      l.val < max_leds.val := by
    intro l hl
    obtain ⟨i, hi, rfl⟩ := List.mem_map.mp hl
    rw [List.mem_range] at hi
    have hofn : (Fin.ofNat i : U8).val = i % 256 := rfl
    rw [hofn]
    omega
  obtain ⟨bufF, heq, _, _⟩ :=
    writeLedsLoop_ok max_leds COLOR_OFF hmax _ hin initReportBuf initReportBuf_length
  have hframe : set_multiple_leds_color max_leds
      ((List.range max_leds.val).map (fun i => (Fin.ofNat i : U8))) COLOR_OFF
      = Except.ok (bufF.take (report_length max_leds)) := by
    rw [set_multiple_leds_color, heq]
    rfl
  have hsend := send_ok_iff ok2 (bufF.take (report_length max_leds))
  simp only [drop_blinkstick, set_all_leds_color, hframe]
  cases hres : (send_feature_to_blinkstick ok2 (bufF.take (report_length max_leds))).1 with
  | ok u =>
    cases u
    have hex := hsend.mp hres
    constructor
    · exact ⟨fun _ => hex, fun _ => rfl⟩
    · constructor
      · intro hc
        exact absurd hc (by simp)
      · intro hall
        obtain ⟨i, hi, hoki⟩ := hex
        exact absurd hoki (by simp [hall i hi])
  | error e =>
    have hnex : ∀ i, i < 6 → ok2 i = false := by
      intro i hi
      rcases Bool.eq_false_or_eq_true (ok2 i) with ht | hf
      · have := hsend.mpr ⟨i, hi, ht⟩
        rw [this] at hres
        exact absurd hres (by simp)
      · exact hf
    constructor
    · constructor
      · intro hc
        exact absurd hc (by simp)
      · intro hex
        obtain ⟨i, hi, hoki⟩ := hex
        exact absurd hoki (by simp [hnex i hi])
    · exact ⟨fun _ => hnex, fun _ => rfl⟩

/-- C5 witness: the amended theorem at a concrete device and transport. -/
theorem claim_drop_issues_all_off_amended_witness :
    ((drop_blinkstick 8 (fun i => decide (i = 5)) = some ())
      ↔ ∃ i, i < 6 ∧ decide (i = 5) = true)
    ∧ ((drop_blinkstick 8 (fun i => decide (i = 5)) = none)
      ↔ ∀ i, i < 6 → decide (i = 5) = false) :=
  claim_drop_issues_all_off_amended 8 (fun i => decide (i = 5)) (by decide)

/-! ## Animation-engine proofs -/

lemma range_map_shift {α : Type} (f : Nat → α) (start c : Nat) :
    (List.range (c + 1)).map (fun i => f (start + i))
      = f start :: (List.range c).map (fun i => f (start + 1 + i)) := by
  rw [List.range_succ_eq_map, List.map_cons, List.map_map]
  refine congrArg₂ List.cons (by simp) (List.map_congr_left ?_)
  intro i _
  simp only [Function.comp_apply]
  exact congrArg f (by omega)

lemma foldl_set_getLastD (led : Nat) :
    ∀ (g : List Color) (c : Color) (s : List Color),
    (c :: g).foldl (fun acc c2 => acc.set led c2) s = s.set led (g.getLastD c) := by
  intro g
  induction g with
  | nil =>
    intro c s
    simp [List.getLastD]
  | cons c2 g2 ih =>
    intro c s
    have h1 : ((c :: c2 :: g2).foldl (fun acc c3 => acc.set led c3) s)
        = (c2 :: g2).foldl (fun acc c3 => acc.set led c3) (s.set led c) := by
      simp [List.foldl_cons]
    rw [h1, ih c2 (s.set led c), List.set_set, List.getLastD_cons]

lemma calculate_gradients_getLastD (s t : Color) (steps : Nat) (h : 1 ≤ steps) (d : Color) :
    (calculate_gradients s t steps).getLastD d = t := by
  rw [List.getLastD_eq_getLast?, calculate_gradients_last s t steps h]
  rfl

lemma calculate_gradients_getD_last (s t : Color) (steps : Nat) (h : 1 ≤ steps) (d : Color) :
    (calculate_gradients s t steps).getD (steps - 1) d = t := by
  have h1 := calculate_gradients_last s t steps h
  rw [List.getLast?_eq_getElem?, calculate_gradients_length] at h1
  rw [List.getD_eq_getElem?_getD, h1]
  rfl

lemma transformLedLoop_spec (max_leds : U8) (led : U8) (interval : Nat) (elapsed : Nat → Nat)
    (hled : led.val < max_leds.val) :
    ∀ (gradient : List Color) (step : Nat) (s : List Color),
    transformLedLoop max_leds led interval elapsed gradient step s
      = some (gradient.foldl (fun acc c => acc.set led.val c) s,
          (List.range gradient.length).map (fun i => interval - elapsed (step + i))) := by
  intro gradient
  induction gradient with
  | nil =>
    intro step s
    simp [transformLedLoop]
  | cons c rest ih =>
    intro step s
    simp only [transformLedLoop, set_led_color_state,
      if_neg (Fin.not_le.mpr (Fin.lt_def.mpr hled))]
    rw [ih (step + 1) (s.set led.val c)]
    simp only [List.foldl_cons, List.length_cons]
    rw [range_map_shift (fun i => interval - elapsed i) step rest.length]
    rfl

lemma transform_led_color_spec (max_leds : U8) (s : List Color) (led : U8)
    (duration steps : Nat) (target : Color) (elapsed : Nat → Nat)
    (hled : led.val < max_leds.val) (hlens : led.val < s.length) (hsteps : 1 ≤ steps) :
    transform_led_color max_leds s led duration steps target elapsed
      = some (s.set led.val target,
          (List.range steps).map (fun i => duration / steps - elapsed i)) := by
  have hget : get_led_color max_leds s led = some (s.getD led.val COLOR_OFF) := by
    rw [get_led_color, if_neg (Fin.not_le.mpr (Fin.lt_def.mpr hled)),
      List.getElem?_eq_getElem hlens, List.getD_eq_getElem s COLOR_OFF hlens]
  rw [transform_led_color, if_neg (by omega)]
  simp only [hget]
  rw [transformLedLoop_spec max_leds led (duration / steps) elapsed hled _ 0 s]
  have hleng := calculate_gradients_length (s.getD led.val COLOR_OFF) target steps
  match hgrad : calculate_gradients (s.getD led.val COLOR_OFF) target steps with
  | [] =>
    rw [hgrad] at hleng
    simp at hleng
    omega
  | c :: g2 =>
    rw [foldl_set_getLastD]
    have hlast : g2.getLastD c = target := by
      have := calculate_gradients_getLastD (s.getD led.val COLOR_OFF) target steps hsteps c
      rw [hgrad, List.getLastD_cons] at this
      exact this
    rw [hlast]
    rw [hgrad] at hleng
    rw [show (c :: g2).length = steps from hleng]
    refine congrArg some (congrArg (Prod.mk _) (List.map_congr_left ?_))
    intro i _
    simp

/-- C8: for every in-range led, `steps ≥ 1` and target color, a completed
`transform_led_color` leaves the LED exactly at the requested target (the
last gradient element is exactly the target, so the last frame written
carries it), and `get_led_color` afterwards returns the target. -/
theorem claim_transform_reaches_target (max_leds : U8) (s : List Color) (led : U8)
    (duration steps : Nat) (target : Color) (elapsed : Nat → Nat)
    (hled : led.val < max_leds.val) (hlen : s.length = max_leds.val) (hsteps : 1 ≤ steps) :
    ∃ sleeps, transform_led_color max_leds s led duration steps target elapsed
      = some (s.set led.val target, sleeps)
    ∧ get_led_color max_leds (s.set led.val target) led = some target := by
  have hlens : led.val < s.length := by omega
  refine ⟨(List.range steps).map (fun i => duration / steps - elapsed i),
    transform_led_color_spec max_leds s led duration steps target elapsed hled hlens hsteps, ?_⟩
  rw [get_led_color, if_neg (Fin.not_le.mpr (Fin.lt_def.mpr hled)),
    List.getElem?_set_eq_of_lt target hlens]

/-- C8 witness: the theorem at a concrete 2-led device, one step, with an
overrunning step (elapsed exceeds the interval). -/
theorem claim_transform_reaches_target_witness :
    ∃ sleeps, transform_led_color 2 [COLOR_OFF, COLOR_OFF] 1 10 1 ⟨5, 6, 7⟩ (fun _ => 99)
      = some ([COLOR_OFF, COLOR_OFF].set 1 ⟨5, 6, 7⟩, sleeps)
    ∧ get_led_color 2 ([COLOR_OFF, COLOR_OFF].set 1 ⟨5, 6, 7⟩) 1 = some ⟨5, 6, 7⟩ :=
  claim_transform_reaches_target 2 [COLOR_OFF, COLOR_OFF] 1 10 1 ⟨5, 6, 7⟩ (fun _ => 99)
    (by decide) (by decide) (by decide)

lemma enum_mem {α : Type} (l : List α) (p : Nat × α) (hp : p ∈ l.enum) :
    p.1 < l.length ∧ l[p.1]? = some p.2 := by
  have htk : l.enum.take l.length = l.enum := by
    have hle : l.enum.length = l.length := List.enum_length
    rw [← hle, List.take_length]
  exact enum_take_mem l l.length p (by rw [htk]; exact hp)

lemma set_all_state_length (max_leds : U8) (colors : List Color) :
    (set_all_leds_colors_state max_leds colors).length = max_leds.val := by
  simp [set_all_leds_colors_state]

lemma set_all_state_self (max_leds : U8) (l : List Color) (hl : l.length = max_leds.val) :
    set_all_leds_colors_state max_leds l = l := by
  rw [set_all_leds_colors_state, ← hl]
  refine List.ext_getElem (by simp) ?_
  intro i h1 h2
  rw [List.getElem_map, List.getElem_range, List.getD_eq_getElem l COLOR_OFF h2]

lemma getLastD_of_ne_nil {α : Type} (l : List α) (hl : l ≠ []) (a b : α) :
    l.getLastD a = l.getLastD b := by
  rw [List.getLastD_eq_getLast?, List.getLastD_eq_getLast?]
  cases hg : l.getLast? with
  | none => exact absurd (List.getLast?_eq_none_iff.mp hg) hl
  | some x => rfl

lemma range_getLastD (n : Nat) (hn : 1 ≤ n) : (List.range n).getLastD 0 = n - 1 := by
  rw [show n = (n - 1) + 1 from by omega, List.range_succ, List.getLastD_concat]
  omega

lemma transformLedsLoop_spec (max_leds : U8) (gl : List Color) (interval steps : Nat)
    (elapsed : Nat → Nat) :
    ∀ (steps_list : List Nat) (s : List Color),
    ∃ sF, transformLedsLoop max_leds gl interval steps elapsed steps_list s
      = some (sF, steps_list.map (fun k => interval - elapsed k))
      ∧ (steps_list ≠ [] →
          sF = set_all_leds_colors_state max_leds
            (stepBy steps (gl.drop (steps_list.getLastD 0))))
      ∧ (steps_list = [] → sF = s) := by
  intro steps_list
  induction steps_list with
  | nil =>
    intro s
    exact ⟨s, by simp [transformLedsLoop], by simp, fun _ => rfl⟩
  | cons k rest ih =>
    intro s
    obtain ⟨sF, heq, hne, hnil⟩ :=
      ih (set_all_leds_colors_state max_leds (stepBy steps (gl.drop k)))
    refine ⟨sF, ?_, fun _ => ?_, by simp⟩
    · simp only [transformLedsLoop, heq, List.map_cons]
      rfl
    · by_cases hrestnil : rest = []
      · rw [hnil hrestnil, hrestnil]
        rfl
      · rw [hne hrestnil, List.getLastD_cons, getLastD_of_ne_nil rest hrestnil 0 k]

lemma transform_leds_spec (max_leds : U8) (s gl : List Color) (duration steps : Nat)
    (elapsed : Nat → Nat) (hsteps : 1 ≤ steps) :
    transform_leds max_leds s gl duration steps elapsed
      = some (set_all_leds_colors_state max_leds (stepBy steps (gl.drop (steps - 1))),
          (List.range steps).map (fun i => duration / steps - elapsed i)) := by
  rw [transform_leds, if_neg (by omega)]
  obtain ⟨sF, heq, hne, _⟩ :=
    transformLedsLoop_spec max_leds gl (duration / steps) steps elapsed (List.range steps) s
  rw [heq, hne (by
    intro hc
    have := congrArg List.length hc
    simp at this
    omega)]
  rw [range_getLastD steps hsteps]

lemma drop_of_length_le {α : Type} (l : List α) (n : Nat) (h : l.length ≤ n) :
    l.drop n = [] := by
  apply List.eq_nil_of_length_eq_zero
  rw [List.length_drop]
  omega

lemma stepBy_flatten (n : Nat) (hn : 1 ≤ n) :
    ∀ (blocks : List (List Color)) (s2 : Nat), (∀ b ∈ blocks, b.length = n) → s2 < n →
    stepBy n (blocks.flatten.drop s2) = blocks.map (fun b => b.getD s2 COLOR_OFF) := by
  intro blocks
  induction blocks with
  | nil =>
    intro s2 _ _
    simp [stepBy]
  | cons b bs ih =>
    intro s2 hb hs2
    have hbl : b.length = n := hb b (List.mem_cons_self _ _)
    rw [List.flatten_cons, List.drop_append_eq_append_drop,
      show s2 - b.length = 0 from by omega, List.drop_zero]
    rw [List.drop_eq_getElem_cons (show s2 < b.length from by omega), List.cons_append]
    rw [stepBy]
    rw [List.drop_append_eq_append_drop]
    have hd1 : (b.drop (s2 + 1)).drop (n - 1) = [] := by
      apply drop_of_length_le
      rw [List.length_drop]
      omega
    rw [hd1, List.nil_append, List.length_drop,
      show n - 1 - (b.length - (s2 + 1)) = s2 from by omega]
    rw [ih s2 (fun b2 hb2 => hb b2 (List.mem_cons_of_mem _ hb2)) hs2, List.map_cons]
    refine congrArg₂ List.cons ?_ rfl
    exact (List.getD_eq_getElem b COLOR_OFF (by omega)).symm

lemma buildGradientsAll_ok (max_leds : U8) (s : List Color) (steps : Nat)
    (hlen : s.length = max_leds.val) :
    ∀ pairs : List (Nat × Color), (∀ p ∈ pairs, p.1 < max_leds.val) →
    buildGradientsAll max_leds s steps pairs
      = some ((pairs.map (fun p =>
          calculate_gradients (s.getD p.1 COLOR_OFF) p.2 steps)).flatten) := by
  intro pairs
  induction pairs with
  | nil =>
    intro _
    simp [buildGradientsAll]
  | cons p0 rest ih =>
    obtain ⟨i0, t0⟩ := p0
    intro hin
    have hi0 : i0 < max_leds.val := hin (i0, t0) (List.mem_cons_self _ _)
    have hofn : (Fin.ofNat i0 : U8).val = i0 := by
      have hv : (Fin.ofNat i0 : U8).val = i0 % 256 := rfl
      have := max_leds.isLt
      rw [hv]
      omega
    have hget : get_led_color max_leds s (Fin.ofNat i0) = some (s.getD i0 COLOR_OFF) := by
      rw [get_led_color, if_neg (Fin.not_le.mpr (Fin.lt_def.mpr (by rw [hofn]; omega))), hofn,
        List.getElem?_eq_getElem (by omega), List.getD_eq_getElem s COLOR_OFF (by omega)]
    simp only [buildGradientsAll, hget, ih (fun p hp => hin p (List.mem_cons_of_mem _ hp))]
    rw [List.map_cons, List.flatten_cons]

lemma transform_all_leds_colors_spec (max_leds : U8) (s targets : List Color)
    (duration steps : Nat) (elapsed : Nat → Nat)
    (hlen : s.length = max_leds.val) (htlen : targets.length = max_leds.val)
    (hsteps : 1 ≤ steps) :
    transform_all_leds_colors max_leds s duration steps targets elapsed
      = some (targets, (List.range steps).map (fun i => duration / steps - elapsed i)) := by
  have hpairs : ∀ p ∈ targets.enum.take max_leds.val, p.1 < max_leds.val :=
    fun p hp => (enum_take_mem targets _ p hp).1
  simp only [transform_all_leds_colors, buildGradientsAll_ok max_leds s steps hlen _ hpairs]
  rw [transform_leds_spec max_leds s _ duration steps elapsed hsteps]
  refine congrArg some (congrArg₂ Prod.mk ?_ rfl)
  rw [stepBy_flatten steps hsteps _ (steps - 1)
    (by
      intro b hb
      obtain ⟨p, _, rfl⟩ := List.mem_map.mp hb
      exact calculate_gradients_length _ _ _)
    (by omega)]
  rw [List.map_map]
  have hmapsnd : (targets.enum.take max_leds.val).map
      ((fun b => b.getD (steps - 1) COLOR_OFF)
        ∘ (fun p => calculate_gradients (s.getD p.1 COLOR_OFF) p.2 steps))
      = (targets.enum.take max_leds.val).map Prod.snd := by
    refine List.map_congr_left ?_
    intro p _
    simp only [Function.comp_apply]
    exact calculate_gradients_getD_last _ _ steps hsteps _
  rw [hmapsnd, List.map_take, List.enum_map_snd, ← htlen, List.take_length]
  exact set_all_state_self max_leds targets htlen

lemma transform_all_leds_colors_completes (max_leds : U8) (s targets : List Color)
    (duration steps : Nat) (elapsed : Nat → Nat)
    (hlen : s.length = max_leds.val) (hsteps : 1 ≤ steps) :
    ∃ sF, transform_all_leds_colors max_leds s duration steps targets elapsed
      = some (sF, (List.range steps).map (fun i => duration / steps - elapsed i)) := by
  have hpairs : ∀ p ∈ targets.enum.take max_leds.val, p.1 < max_leds.val :=
    fun p hp => (enum_take_mem targets _ p hp).1
  simp only [transform_all_leds_colors, buildGradientsAll_ok max_leds s steps hlen _ hpairs]
  rw [transform_leds_spec max_leds s _ duration steps elapsed hsteps]
  exact ⟨_, rfl⟩

lemma buildGradients_ok (max_leds : U8) (s : List Color) (target : Color) (steps : Nat)
    (hlen : s.length = max_leds.val) :
    ∀ leds : List U8, (∀ l ∈ leds, l.val < max_leds.val) →
    buildGradients max_leds s target steps leds
      = some ((leds.map (fun l =>
          calculate_gradients (s.getD l.val COLOR_OFF) target steps)).flatten) := by
  intro leds
  induction leds with
  | nil =>
    intro _
    simp [buildGradients]
  | cons l0 rest ih =>
    intro hin
    have hl0 : l0.val < max_leds.val := hin l0 (List.mem_cons_self _ _)
    have hget : get_led_color max_leds s l0 = some (s.getD l0.val COLOR_OFF) := by
      rw [get_led_color, if_neg (Fin.not_le.mpr (Fin.lt_def.mpr hl0)),
        List.getElem?_eq_getElem (by omega), List.getD_eq_getElem s COLOR_OFF (by omega)]
    simp only [buildGradients, hget, ih (fun l hl => hin l (List.mem_cons_of_mem _ hl))]
    rw [List.map_cons, List.flatten_cons]

lemma flatten_length_const {α : Type} (n : Nat) :
    ∀ ls : List (List α), (∀ b ∈ ls, b.length = n) → ls.flatten.length = ls.length * n := by
  intro ls
  induction ls with
  | nil =>
    intro _
    simp
  | cons b bs ih =>
    intro hb
    rw [List.flatten_cons, List.length_append,
      ih (fun x hx => hb x (List.mem_cons_of_mem _ hx)),
      hb b (List.mem_cons_self _ _), List.length_cons]
    ring

lemma updateLedColors_ok (gl : List Color) (steps step : Nat) (hstep : step < steps) :
    ∀ (pairs : List (Nat × U8)) (acc : List Color),
    (∀ p ∈ pairs, p.2.val < acc.length ∧ (p.1 + 1) * steps ≤ gl.length) →
    ∃ acc2, updateLedColors gl steps step pairs acc = some acc2
      ∧ acc2.length = acc.length := by
  intro pairs
  induction pairs with
  | nil =>
    intro acc _
    exact ⟨acc, rfl, rfl⟩
  | cons p0 rest ih =>
    obtain ⟨i0, led0⟩ := p0
    intro acc hpre
    have h0 := hpre (i0, led0) (List.mem_cons_self _ _)
    simp only at h0
    have hmul : (i0 + 1) * steps = i0 * steps + steps := by ring
    have hcond : led0.val < acc.length ∧ i0 * steps + step < gl.length := by
      refine ⟨h0.1, ?_⟩
      have := h0.2
      omega
    obtain ⟨acc2, heq, hl⟩ := ih (acc.set led0.val (gl.getD (i0 * steps + step) COLOR_OFF))
      (by
        intro p hp
        have := hpre p (List.mem_cons_of_mem _ hp)
        rw [List.length_set]
        exact this)
    refine ⟨acc2, ?_, by rw [hl, List.length_set]⟩
    simp only [updateLedColors, if_pos hcond]
    exact heq

lemma transformMultipleLoop_length (max_leds : U8) (leds : List U8) (gl : List Color)
    (interval steps : Nat) (elapsed : Nat → Nat) :
    ∀ (steps_list : List Nat) (s : List Color), s.length = max_leds.val →
    ∀ sF sl, transformMultipleLoop max_leds leds gl interval steps elapsed steps_list s
      = some (sF, sl) → sF.length = max_leds.val := by
  intro steps_list
  induction steps_list with
  | nil =>
    intro s hslen sF sl heq
    simp only [transformMultipleLoop, Option.some.injEq, Prod.mk.injEq] at heq
    rw [← heq.1]
    exact hslen
  | cons k rest ih =>
    intro s hslen sF sl heq
    simp only [transformMultipleLoop] at heq
    cases hupd : updateLedColors gl steps k leds.enum s with
    | none =>
      simp only [hupd] at heq
      exact absurd heq (by simp)
    | some updated =>
      simp only [hupd] at heq
      cases hds : duration_sub interval (elapsed k) with
      | none =>
        simp only [hds] at heq
        exact absurd heq (by simp)
      | some sleep =>
        simp only [hds] at heq
        cases hrec : transformMultipleLoop max_leds leds gl interval steps elapsed rest
            (set_all_leds_colors_state max_leds updated) with
        | none =>
          simp only [hrec] at heq
          exact absurd heq (by simp)
        | some pr =>
          obtain ⟨sF2, sl2⟩ := pr
          simp only [hrec, Option.some.injEq, Prod.mk.injEq] at heq
          rw [← heq.1]
          exact ih (set_all_leds_colors_state max_leds updated)
            (set_all_state_length max_leds updated) sF2 sl2 hrec

lemma transformMultipleLoop_completes (max_leds : U8) (leds : List U8) (gl : List Color)
    (interval steps : Nat) (elapsed : Nat → Nat)
    (hpre : ∀ p ∈ leds.enum, p.2.val < max_leds.val ∧ (p.1 + 1) * steps ≤ gl.length) :
    ∀ (steps_list : List Nat) (s : List Color), (∀ k ∈ steps_list, k < steps) →
    s.length = max_leds.val → (∀ k ∈ steps_list, elapsed k ≤ interval) →
    ∃ sF sl, transformMultipleLoop max_leds leds gl interval steps elapsed steps_list s
      = some (sF, sl) := by
  intro steps_list
  induction steps_list with
  | nil =>
    intro s _ _ _
    exact ⟨s, [], rfl⟩
  | cons k rest ih =>
    intro s hlist hslen hall
    have hk : k < steps := hlist k (List.mem_cons_self _ _)
    obtain ⟨updated, hupd, hulen⟩ := updateLedColors_ok gl steps k hk leds.enum s
      (fun p hp => ⟨by rw [hslen]; exact (hpre p hp).1, (hpre p hp).2⟩)
    have hds : duration_sub interval (elapsed k) = some (interval - elapsed k) := by
      rw [duration_sub, if_pos (hall k (List.mem_cons_self _ _))]
    obtain ⟨sF, sl, hrec⟩ := ih (set_all_leds_colors_state max_leds updated)
      (fun x hx => hlist x (List.mem_cons_of_mem _ hx))
      (set_all_state_length max_leds updated)
      (fun x hx => hall x (List.mem_cons_of_mem _ hx))
    refine ⟨sF, (interval - elapsed k) :: sl, ?_⟩
    simp only [transformMultipleLoop, hupd, hds, hrec]

lemma transformMultipleLoop_overrun (max_leds : U8) (leds : List U8) (gl : List Color)
    (interval steps : Nat) (elapsed : Nat → Nat)
    (hpre : ∀ p ∈ leds.enum, p.2.val < max_leds.val ∧ (p.1 + 1) * steps ≤ gl.length) :
    ∀ (steps_list : List Nat) (s : List Color), (∀ k ∈ steps_list, k < steps) →
    s.length = max_leds.val → (∃ k ∈ steps_list, interval < elapsed k) →
    transformMultipleLoop max_leds leds gl interval steps elapsed steps_list s = none := by
  intro steps_list
  induction steps_list with
  | nil =>
    intro s _ _ hex
    obtain ⟨k, hk, _⟩ := hex
    exact absurd hk (by simp)
  | cons k rest ih =>
    intro s hlist hslen hex
    have hk : k < steps := hlist k (List.mem_cons_self _ _)
    obtain ⟨updated, hupd, hulen⟩ := updateLedColors_ok gl steps k hk leds.enum s
      (fun p hp => ⟨by rw [hslen]; exact (hpre p hp).1, (hpre p hp).2⟩)
    by_cases hnow : elapsed k ≤ interval
    · have hds : duration_sub interval (elapsed k) = some (interval - elapsed k) := by
        rw [duration_sub, if_pos hnow]
      have hex2 : ∃ x ∈ rest, interval < elapsed x := by
        obtain ⟨x, hx1, hx2⟩ := hex
        rcases List.mem_cons.mp hx1 with hxk | hxr
        · subst hxk
          omega
        · exact ⟨x, hxr, hx2⟩
      have hrec := ih (set_all_leds_colors_state max_leds updated)
        (fun x hx => hlist x (List.mem_cons_of_mem _ hx))
        (set_all_state_length max_leds updated) hex2
      simp only [transformMultipleLoop, hupd, hds, hrec]
    · have hds : duration_sub interval (elapsed k) = none := by
        rw [duration_sub, if_neg hnow]
      simp only [transformMultipleLoop, hupd, hds]

lemma transform_multiple_pre (max_leds : U8) (leds : List U8) (gl : List Color) (steps : Nat)
    (hleds : ∀ l ∈ leds, l.val < max_leds.val) (hgllen : gl.length = leds.length * steps) :
    ∀ p ∈ leds.enum, p.2.val < max_leds.val ∧ (p.1 + 1) * steps ≤ gl.length := by
  intro p hp
  obtain ⟨hp1, hp2⟩ := enum_mem leds p hp
  constructor
  · exact hleds p.2 (List.mem_iff_getElem?.mpr ⟨p.1, hp2⟩)
  · rw [hgllen]
    exact Nat.mul_le_mul_right steps (by omega)

lemma transform_multiple_completes (max_leds : U8) (s : List Color) (leds : List U8)
    (duration steps : Nat) (target : Color) (elapsed : Nat → Nat)
    (hlen : s.length = max_leds.val) (hleds : ∀ l ∈ leds, l.val < max_leds.val)
    (hsteps : 1 ≤ steps) (hall : ∀ k, k < steps → elapsed k ≤ duration / steps) :
    ∃ sF sl, transform_multiple_leds_color max_leds s leds duration steps target elapsed
      = some (sF, sl) ∧ sF.length = max_leds.val := by
  have hbg := buildGradients_ok max_leds s target steps hlen leds hleds
  have hgllen : ((leds.map (fun l =>
      calculate_gradients (s.getD l.val COLOR_OFF) target steps)).flatten).length
      = leds.length * steps := by
    rw [flatten_length_const steps _ (by
      intro b hb
      obtain ⟨l, _, rfl⟩ := List.mem_map.mp hb
      exact calculate_gradients_length _ _ _)]
    rw [List.length_map]
  have hpre := transform_multiple_pre max_leds leds _ steps hleds hgllen
  obtain ⟨sF, sl, hloop⟩ := transformMultipleLoop_completes max_leds leds _
    (duration / steps) steps elapsed hpre (List.range steps) s
    (fun k hk => List.mem_range.mp hk) hlen
    (fun k hk => hall k (List.mem_range.mp hk))
  have hflen := transformMultipleLoop_length max_leds leds _
    (duration / steps) steps elapsed (List.range steps) s hlen sF sl hloop
  refine ⟨sF, sl, ?_, hflen⟩
  rw [transform_multiple_leds_color, if_neg (by omega)]
  simp only [hbg]
  exact hloop

lemma transform_multiple_overrun (max_leds : U8) (s : List Color) (leds : List U8)
    (duration steps : Nat) (target : Color) (elapsed : Nat → Nat)
    (hlen : s.length = max_leds.val) (hleds : ∀ l ∈ leds, l.val < max_leds.val)
    (hsteps : 1 ≤ steps) (hex : ∃ k, k < steps ∧ duration / steps < elapsed k) :
    transform_multiple_leds_color max_leds s leds duration steps target elapsed = none := by
  have hbg := buildGradients_ok max_leds s target steps hlen leds hleds
  have hgllen : ((leds.map (fun l =>
      calculate_gradients (s.getD l.val COLOR_OFF) target steps)).flatten).length
      = leds.length * steps := by
    rw [flatten_length_const steps _ (by
      intro b hb
      obtain ⟨l, _, rfl⟩ := List.mem_map.mp hb
      exact calculate_gradients_length _ _ _)]
    rw [List.length_map]
  have hpre := transform_multiple_pre max_leds leds _ steps hleds hgllen
  rw [transform_multiple_leds_color, if_neg (by omega)]
  simp only [hbg]
  refine transformMultipleLoop_overrun max_leds leds _ (duration / steps) steps elapsed hpre
    (List.range steps) s (fun k hk => List.mem_range.mp hk) hlen ?_
  obtain ⟨k, hk1, hk2⟩ := hex
  exact ⟨k, List.mem_range.mpr hk1, hk2⟩

/-- C4 counterexample: in `transform_multiple_leds_color`, a step whose
measured elapsed time (7) exceeds the per-step interval (5) makes the run
halt (the unchecked `Duration` subtraction panics), refuting the claim that
every transform variant clamps the negative remainder and proceeds. -/
theorem claim_step_overrun_counterexample :
    transform_multiple_leds_color 1 [COLOR_OFF] [0] 5 1 ⟨9, 9, 9⟩ (fun _ => 7) = none := by
  decide

/-- C4 amended: `transform_led_color` and `transform_leds` (the step engine
of `transform_all_leds_color` and `transform_all_leds_colors`) clamp the
pacing subtraction: they complete for every elapsed-time oracle, and the
recorded sleep of each step is the truncated difference `interval - elapsed`
(zero on overrun); `transform_multiple_leds_color`, however, uses an
unchecked `Duration` subtraction: it completes when every step's elapsed
time is within the interval, and panics as soon as some step's elapsed time
exceeds the interval. -/
theorem claim_step_overrun_policy (max_leds : U8) (s gl targets : List Color) (led : U8)
    (leds : List U8) (duration steps : Nat) (target : Color) (elapsed : Nat → Nat)
    (hled : led.val < max_leds.val) (hlen : s.length = max_leds.val)
    (hsteps : 1 ≤ steps) (hleds : ∀ l ∈ leds, l.val < max_leds.val) :
    (transform_led_color max_leds s led duration steps target elapsed
      = some (s.set led.val target,
          (List.range steps).map (fun i => duration / steps - elapsed i)))
    ∧ (transform_leds max_leds s gl duration steps elapsed
        = some (set_all_leds_colors_state max_leds (stepBy steps (gl.drop (steps - 1))),
            (List.range steps).map (fun i => duration / steps - elapsed i)))
    ∧ (∃ sF, transform_all_leds_colors max_leds s duration steps targets elapsed
        = some (sF, (List.range steps).map (fun i => duration / steps - elapsed i)))
    ∧ ((∀ k, k < steps → elapsed k ≤ duration / steps) →
        ∃ sF sl, transform_multiple_leds_color max_leds s leds duration steps target elapsed
          = some (sF, sl))
    ∧ ((∃ k, k < steps ∧ duration / steps < elapsed k) →
        transform_multiple_leds_color max_leds s leds duration steps target elapsed
          = none) := by
  refine ⟨transform_led_color_spec max_leds s led duration steps target elapsed hled
      (by omega) hsteps,
    transform_leds_spec max_leds s gl duration steps elapsed hsteps,
    transform_all_leds_colors_completes max_leds s targets duration steps elapsed hlen hsteps,
    ?_, ?_⟩
  · intro hall
    obtain ⟨sF, sl, heq, _⟩ := transform_multiple_completes max_leds s leds duration steps
      target elapsed hlen hleds hsteps hall
    exact ⟨sF, sl, heq⟩
  · intro hex
    exact transform_multiple_overrun max_leds s leds duration steps target elapsed
      hlen hleds hsteps hex

set_option maxRecDepth 4000 in
/-- C4 witness: the amended theorem on a 1-led device with an elapsed-time
oracle that overruns every step (99 ≫ interval 10): the led/all variants
complete with zero sleeps and the multiple variant halts. -/
theorem claim_step_overrun_policy_witness :
    (transform_led_color 1 [COLOR_OFF] 0 10 1 ⟨1, 2, 3⟩ (fun _ => 99)
      = some ([COLOR_OFF].set 0 ⟨1, 2, 3⟩,
          (List.range 1).map (fun i => 10 / 1 - (fun _ : Nat => 99) i)))
    ∧ (transform_leds 1 [COLOR_OFF] [] 10 1 (fun _ => 99)
        = some (set_all_leds_colors_state 1 (stepBy 1 (List.drop (1 - 1) [])),
            (List.range 1).map (fun i => 10 / 1 - (fun _ : Nat => 99) i)))
    ∧ (∃ sF, transform_all_leds_colors 1 [COLOR_OFF] 10 1 [] (fun _ => 99)
        = some (sF, (List.range 1).map (fun i => 10 / 1 - (fun _ : Nat => 99) i)))
    ∧ ((∀ k, k < 1 → (fun _ : Nat => 99) k ≤ 10 / 1) →
        ∃ sF sl, transform_multiple_leds_color 1 [COLOR_OFF] [0] 10 1 ⟨1, 2, 3⟩
          (fun _ => 99) = some (sF, sl))
    ∧ ((∃ k, k < 1 ∧ 10 / 1 < (fun _ : Nat => 99) k) →
        transform_multiple_leds_color 1 [COLOR_OFF] [0] 10 1 ⟨1, 2, 3⟩ (fun _ => 99)
          = none) :=
  claim_step_overrun_policy 1 [COLOR_OFF] [] [] 0 [0] 10 1 ⟨1, 2, 3⟩ (fun _ => 99)
    (by decide) (by decide) (by decide) (by decide)

lemma transform_all_leds_color_spec (max_leds : U8) (s : List Color)
    (duration steps : Nat) (target : Color) (elapsed : Nat → Nat)
    (hlen : s.length = max_leds.val) (hsteps : 1 ≤ steps) :
    ∃ sF, transform_all_leds_color max_leds s duration steps target elapsed
      = some (sF, (List.range steps).map (fun i => duration / steps - elapsed i))
      ∧ sF.length = max_leds.val := by
  have hin : ∀ l ∈ (List.range max_leds.val).map (fun i => (Fin.ofNat i : U8)),
      l.val < max_leds.val := by
    intro l hl
    obtain ⟨i, hi, rfl⟩ := List.mem_map.mp hl
    rw [List.mem_range] at hi
    have hofn : (Fin.ofNat i : U8).val = i % 256 := rfl
    rw [hofn]
    omega
  have hbg := buildGradients_ok max_leds s target steps hlen _ hin
  simp only [transform_all_leds_color, hbg]
  rw [transform_leds_spec max_leds s _ duration steps elapsed hsteps]
  exact ⟨_, rfl, set_all_state_length _ _⟩

/-- C7: a completed pulse leaves every animated LED exactly at its pre-call
color: `pulse_led_color` completes and reading the led afterwards returns
its pre-call value, and any completed `pulse_multiple_leds_color` or
`pulse_all_leds_color` restores the entire captured pre-call state. -/
theorem claim_pulse_restores (max_leds : U8) (s : List Color) (led : U8) (leds : List U8)
    (duration steps : Nat) (color : Color) (e1 e2 e3 e4 e5 e6 : Nat → Nat)
    (hled : led.val < max_leds.val) (hlen : s.length = max_leds.val) (hsteps : 1 ≤ steps) :
    (∃ s2, pulse_led_color max_leds s led duration steps color e1 e2 = some s2
      ∧ get_led_color max_leds s2 led = get_led_color max_leds s led)
    ∧ (∀ s3, pulse_multiple_leds_color max_leds s leds duration steps color e3 e4 = some s3 →
        s3 = s)
    ∧ (∀ s4, pulse_all_leds_color max_leds s duration steps color e5 e6 = some s4 →
        s4 = s) := by
  refine ⟨?_, ?_, ?_⟩
  · have hlens : led.val < s.length := by omega
    have hget : get_led_color max_leds s led = some (s.getD led.val COLOR_OFF) := by
      rw [get_led_color, if_neg (Fin.not_le.mpr (Fin.lt_def.mpr hled)),
        List.getElem?_eq_getElem hlens, List.getD_eq_getElem s COLOR_OFF hlens]
    have ht1 := transform_led_color_spec max_leds s led (duration / 2) steps color e1
      hled hlens hsteps
    have ht2 := transform_led_color_spec max_leds (s.set led.val color) led (duration / 2)
      steps (s.getD led.val COLOR_OFF) e2 hled (by rw [List.length_set]; omega) hsteps
    refine ⟨(s.set led.val color).set led.val (s.getD led.val COLOR_OFF), ?_, ?_⟩
    · simp only [pulse_led_color, hget, ht1, ht2]
    · rw [List.set_set, get_led_color, if_neg (Fin.not_le.mpr (Fin.lt_def.mpr hled)),
        List.getElem?_set_eq_of_lt _ hlens, hget]
  · intro s3 heq
    cases hm : transform_multiple_leds_color max_leds s leds (duration / 2) steps color e3 with
    | none =>
      simp only [pulse_multiple_leds_color, hm] at heq
      exact absurd heq (by simp)
    | some pr =>
      obtain ⟨s2, sl⟩ := pr
      have hs2len : s2.length = max_leds.val := by
        rw [transform_multiple_leds_color, if_neg (by omega)] at hm
        cases hbg : buildGradients max_leds s color steps leds with
        | none =>
          simp only [hbg] at hm
          exact absurd hm (by simp)
        | some gl2 =>
          simp only [hbg] at hm
          exact transformMultipleLoop_length max_leds leds gl2 ((duration / 2) / steps)
            steps e3 (List.range steps) s hlen s2 sl hm
      have hall := transform_all_leds_colors_spec max_leds s2 s (duration / 2) steps e4
        hs2len hlen hsteps
      simp only [pulse_multiple_leds_color, hm, hall, Option.some.injEq] at heq
      exact heq.symm
  · intro s4 heq
    obtain ⟨s2, hm, hs2len⟩ := transform_all_leds_color_spec max_leds s (duration / 2) steps
      color e5 hlen hsteps
    have hall := transform_all_leds_colors_spec max_leds s2 s (duration / 2) steps e6
      hs2len hlen hsteps
    simp only [pulse_all_leds_color, hm, hall, Option.some.injEq] at heq
    exact heq.symm

/-- C7 witness: a 1-led device, one step, concrete colors and timings. -/
theorem claim_pulse_restores_witness :
    (∃ s2, pulse_led_color 1 [⟨3, 4, 5⟩] 0 8 1 ⟨9, 9, 9⟩ (fun _ => 0) (fun _ => 0) = some s2
      ∧ get_led_color 1 s2 0 = get_led_color 1 [⟨3, 4, 5⟩] 0)
    ∧ (∀ s3, pulse_multiple_leds_color 1 [⟨3, 4, 5⟩] [0] 8 1 ⟨9, 9, 9⟩ (fun _ => 0)
        (fun _ => 0) = some s3 → s3 = [⟨3, 4, 5⟩])
    ∧ (∀ s4, pulse_all_leds_color 1 [⟨3, 4, 5⟩] 8 1 ⟨9, 9, 9⟩ (fun _ => 0)
        (fun _ => 0) = some s4 → s4 = [⟨3, 4, 5⟩]) :=
  claim_pulse_restores 1 [⟨3, 4, 5⟩] 0 [0] 8 1 ⟨9, 9, 9⟩ (fun _ => 0) (fun _ => 0)
    (fun _ => 0) (fun _ => 0) (fun _ => 0) (fun _ => 0) (by decide) (by decide) (by decide)
